import Mathlib

/-!
Verification of the RailyardShuffle spline-track / linkable-entity engine.

The TypeScript source is shallowly embedded as follows: JavaScript numbers
are idealized as real numbers (exact arithmetic), `Map` objects keyed by
entity or track id are embedded as lists looked up by id, in-place object
mutation is embedded as functional record update threaded through the
call graph in source order, and the `Infinity` that the distance helpers
return for entities on different tracks is embedded as `Option ℝ` with
`none` standing for `Infinity`.  Sampling loops of the form
`for (let t = 0; t <= 1; t += step)` are embedded as maps over the exact
list of the sampled parameters.
-/

namespace Railyard

/-- 2D vector (`Vector2` in `src/types/index.ts`). -/
@[ext]
structure Vec2 where
  x : ℝ
  y : ℝ

/-- A spline control point (`SplinePoint` in `src/types/railyard.ts`).
The optional `tangent` field is never read by the evaluator and is omitted. -/
structure SplinePoint where
  position : Vec2

/-- Default control point used for (unreachable) out-of-range array reads. -/
def originPoint : SplinePoint := ⟨⟨0, 0⟩⟩

/-- A track (`TrackSegment` in `src/types/railyard.ts`): the fields the engine
reads are its id, its spline control points and its occupancy flag; the
rendering-only fields (`type`, `connections` legacy data) are omitted. -/
structure TrackSegment where
  id : String
  spline : List SplinePoint
  occupied : Bool

/-- `SplineTrackSystem`: tracks keyed by id plus the adjacency map
`connections : trackId -> connected trackIds`. -/
structure SplineTrackSystem where
  tracks : List TrackSegment
  connections : List (String × List String)

/-- `SplineTrackSystem.getTrack`. -/
def getTrack (ts : SplineTrackSystem) (id : String) : Option TrackSegment :=
  ts.tracks.find? (fun tr => tr.id == id)

/-- `SplineTrackSystem.getConnectedTracks` (`this.connections.get(trackId) || []`). -/
def getConnectedTracks (ts : SplineTrackSystem) (id : String) : List String :=
  match ts.connections.find? (fun c => c.1 == id) with
  | some c => c.2
  | none => []

/-- `SplineTrackSystem.setTrackOccupied`. -/
def setTrackOccupied (ts : SplineTrackSystem) (id : String) (occ : Bool) :
    SplineTrackSystem :=
  { ts with tracks := ts.tracks.map (fun tr => if tr.id == id then { tr with occupied := occ } else tr) }

/-- `t = Math.max(0, Math.min(1, t))` — the clamp applied by `getPositionOnSpline`. -/
noncomputable def clamp01 (t : ℝ) : ℝ := max 0 (min 1 t)

/-- `SplineTrackSystem.lerp`: linear interpolation between two points. -/
noncomputable def lerp (p1 p2 : Vec2) (t : ℝ) : Vec2 :=
  ⟨p1.x + (p2.x - p1.x) * t, p1.y + (p2.y - p1.y) * t⟩

/-- `SplineTrackSystem.catmullRomSpline`: piecewise Catmull-Rom evaluation for
splines with at least three control points (only called with `t` already
clamped to `[0,1]`). -/
noncomputable def catmullRomSpline (points : List SplinePoint) (t : ℝ) : Vec2 :=
  let n : ℕ := points.length - 1
  let segment : ℤ := ⌊t * (n : ℝ)⌋
  let localT : ℝ := t * (n : ℝ) - (segment : ℝ)
  let p0 := (points.getD (max 0 (segment - 1)).toNat originPoint).position
  let p1 := (points.getD segment.toNat originPoint).position
  let p2 := (points.getD (min (n : ℤ) (segment + 1)).toNat originPoint).position
  let p3 := (points.getD (min (n : ℤ) (segment + 2)).toNat originPoint).position
  let t2 := localT * localT
  let t3 := t2 * localT
  ⟨0.5 * ((2 * p1.x) + (-p0.x + p2.x) * localT +
      (2 * p0.x - 5 * p1.x + 4 * p2.x - p3.x) * t2 +
      (-p0.x + 3 * p1.x - 3 * p2.x + p3.x) * t3),
   0.5 * ((2 * p1.y) + (-p0.y + p2.y) * localT +
      (2 * p0.y - 5 * p1.y + 4 * p2.y - p3.y) * t2 +
      (-p0.y + 3 * p1.y - 3 * p2.y + p3.y) * t3)⟩

/-- `SplineTrackSystem.getPositionOnSpline`: 0 points yield the origin, 1 point
yields that point, `t` is clamped to `[0,1]`, 2 points interpolate linearly,
3 or more evaluate the Catmull-Rom spline. -/
noncomputable def getPositionOnSpline (spline : List SplinePoint) (t : ℝ) : Vec2 :=
  if spline.length = 0 then ⟨0, 0⟩
  else if spline.length = 1 then (spline.getD 0 originPoint).position
  else
    let t := clamp01 t
    if spline.length = 2 then
      lerp (spline.getD 0 originPoint).position (spline.getD 1 originPoint).position t
    else catmullRomSpline spline t

/-- `SplineTrackSystem.calculateDistance`: Euclidean distance. -/
noncomputable def calculateDistance (pos1 pos2 : Vec2) : ℝ :=
  Real.sqrt ((pos2.x - pos1.x) ^ 2 + (pos2.y - pos1.y) ^ 2)

lemma clamp01_nonneg (t : ℝ) : 0 ≤ clamp01 t := le_max_left 0 _

lemma clamp01_le_one (t : ℝ) : clamp01 t ≤ 1 := by
  unfold clamp01
  rcases le_total 1 t with h | h
  · simp [min_eq_left h]
  · rw [min_eq_right h]
    exact max_le zero_le_one h

lemma clamp01_of_mem {t : ℝ} (h0 : 0 ≤ t) (h1 : t ≤ 1) : clamp01 t = t := by
  unfold clamp01
  rw [min_eq_right h1, max_eq_right h0]

lemma clamp01_idem (t : ℝ) : clamp01 (clamp01 t) = clamp01 t :=
  clamp01_of_mem (clamp01_nonneg t) (clamp01_le_one t)

lemma catmullRom_at_zero (pts : List SplinePoint) :
    catmullRomSpline pts 0 = (pts.getD 0 originPoint).position := by
  simp only [catmullRomSpline, zero_mul, Int.floor_zero, Int.toNat_zero, Int.cast_zero,
    sub_zero]
  ext <;> ring

lemma catmullRom_at_one (pts : List SplinePoint) :
    catmullRomSpline pts 1 = (pts.getD (pts.length - 1) originPoint).position := by
  simp only [catmullRomSpline, one_mul, Int.floor_natCast, Int.cast_natCast, sub_self,
    Int.toNat_natCast]
  ext <;> ring

/-- C7: on a 2-point spline `getPositionOnSpline` is exact linear
interpolation for every `t ∈ [0,1]`; on any nonempty spline, parameters 0
and 1 evaluate exactly to the first and the last control point; the
parameter is clamped to `[0,1]` before evaluation, so out-of-range input
evaluates as its clamp does and never extrapolates past the endpoints; the
empty spline evaluates to the origin. -/
theorem c7_spline_evaluator_exactness (pts : List SplinePoint) (p q : SplinePoint) (t : ℝ) :
    (0 ≤ t → t ≤ 1 → getPositionOnSpline [p, q] t = lerp p.position q.position t) ∧
    (pts ≠ [] →
      getPositionOnSpline pts 0 = (pts.getD 0 originPoint).position ∧
      getPositionOnSpline pts 1 = (pts.getD (pts.length - 1) originPoint).position) ∧
    getPositionOnSpline pts t = getPositionOnSpline pts (clamp01 t) ∧
    getPositionOnSpline [] t = ⟨0, 0⟩ := by
  refine ⟨?_, ?_, ?_, ?_⟩
  · intro h0 h1
    simp only [getPositionOnSpline, List.length_cons, List.length_nil]
    norm_num [clamp01_of_mem h0 h1]
  · intro hne
    constructor
    · match pts with
      | [a] => simp [getPositionOnSpline]
      | [a, b] =>
          simp only [getPositionOnSpline, List.length_cons, List.length_nil]
          norm_num [clamp01_of_mem (le_refl (0 : ℝ)) zero_le_one, lerp]
      | a :: b :: c :: rest =>
          have hlen : (a :: b :: c :: rest).length ≠ 0 := by simp
          have hlen1 : (a :: b :: c :: rest).length ≠ 1 := by simp
          have hlen2 : (a :: b :: c :: rest).length ≠ 2 := by simp
          simp only [getPositionOnSpline, hlen, hlen1, hlen2, if_false, if_neg]
          rw [clamp01_of_mem (le_refl (0 : ℝ)) zero_le_one, catmullRom_at_zero]
    · match pts with
      | [a] => simp [getPositionOnSpline]
      | [a, b] =>
          simp only [getPositionOnSpline, List.length_cons, List.length_nil]
          norm_num [clamp01_of_mem zero_le_one (le_refl (1 : ℝ)), lerp]
      | a :: b :: c :: rest =>
          have hlen : (a :: b :: c :: rest).length ≠ 0 := by simp
          have hlen1 : (a :: b :: c :: rest).length ≠ 1 := by simp
          have hlen2 : (a :: b :: c :: rest).length ≠ 2 := by simp
          simp only [getPositionOnSpline, hlen, hlen1, hlen2, if_false, if_neg]
          rw [clamp01_of_mem zero_le_one (le_refl (1 : ℝ)), catmullRom_at_one]
  · unfold getPositionOnSpline
    by_cases h0 : pts.length = 0
    · simp [h0]
    · by_cases h1 : pts.length = 1
      · simp [h0, h1]
      · simp only [h0, h1, if_false, clamp01_idem]
  · simp [getPositionOnSpline]

/-- `TrainCarType` from `src/types/railyard.ts`. -/
inductive TrainCarType where
  | regular
  | locomotive
  | cargo
  | passenger
deriving DecidableEq

/-- The linkable entity: the union of the `TrainCar` and `Locomotive`
interfaces of `src/types/railyard.ts` (the engine treats
`Entity = TrainCar | Locomotive`; the car-only field `targetLocomotive` and
the locomotive-only fields `acceptedCarTypes`, `maxCars`, `isActive` default
to the TypeScript `undefined`-like values on the other variant). -/
structure Entity where
  id : String
  type : TrainCarType
  position : Vec2
  size : Vec2
  currentTrack : Option String
  trackProgress : ℝ
  isDragging : Bool
  isCompleted : Bool
  linkedCars : List String
  linkedToFront : Option String := none
  linkedToBack : Option String := none
  targetLocomotive : Option String := none
  acceptedCarTypes : List TrainCarType := []
  maxCars : ℕ := 0
  isActive : Bool := true

/-- `TRAIN_CAR.WIDTH` (constants file). -/
noncomputable def TRAIN_CAR_WIDTH : ℝ := 50

/-- `TRAIN_CAR.HEIGHT` (constants file). -/
noncomputable def TRAIN_CAR_HEIGHT : ℝ := 22

/-- `TRAIN_CAR.LINKING_DISTANCE` (constants file). -/
noncomputable def TRAIN_CAR_LINKING_DISTANCE : ℝ := 50

/-- `EntitySystem.isLocomotive` (`entity.type === TrainCarType.LOCOMOTIVE`). -/
def isLocomotive (e : Entity) : Bool := decide (e.type = TrainCarType.locomotive)

/-- `EntitySystem.isTrainCar` (`entity.type !== TrainCarType.LOCOMOTIVE`). -/
def isTrainCar (e : Entity) : Bool := decide (e.type ≠ TrainCarType.locomotive)

/-- The `{width, height}` record returned by `getEntitySize`. -/
structure EntitySize where
  width : ℝ
  height : ℝ

/-- `EntitySystem.getEntitySize`: a locomotive reports its own size, a train
car reports the `TRAIN_CAR` constants. -/
noncomputable def getEntitySize (e : Entity) : EntitySize :=
  if isLocomotive e then ⟨e.size.x, e.size.y⟩ else ⟨TRAIN_CAR_WIDTH, TRAIN_CAR_HEIGHT⟩

/-- `EntitySystem.getPixelDistanceBetweenEntities`: center-to-center distance
along the shared track (`Infinity`, here `none`, for entities on different
or missing tracks). -/
noncomputable def getPixelDistanceBetweenEntities (ts : SplineTrackSystem)
    (entity1 entity2 : Entity) : Option ℝ :=
  if entity1.currentTrack ≠ entity2.currentTrack then none
  else
    match entity1.currentTrack with
    | none => none
    | some tid =>
      match getTrack ts tid with
      | none => none
      | some track =>
        let pos1 := getPositionOnSpline track.spline entity1.trackProgress
        let pos2 := getPositionOnSpline track.spline entity2.trackProgress
        some (Real.sqrt ((pos2.x - pos1.x) ^ 2 + (pos2.y - pos1.y) ^ 2))

/-- `EntitySystem.getEdgeToEdgeDistance`: center distance minus both
half-widths, clamped below at 0 (`Math.max(0, edgeDistance)`). -/
noncomputable def getEdgeToEdgeDistance (ts : SplineTrackSystem)
    (entity1 entity2 : Entity) : Option ℝ :=
  match getPixelDistanceBetweenEntities ts entity1 entity2 with
  | none => none
  | some centerDistance =>
    let size1 := getEntitySize entity1
    let size2 := getEntitySize entity2
    some (max 0 (centerDistance - size1.width / 2 - size2.width / 2))

open Classical in
/-- The 20-iteration binary search inside `positionEntityAtFixedDistance`,
with state `(minProgress, maxProgress, bestProgress, bestDistance)`;
`bestDistance = none` embeds the initial `Infinity`. -/
noncomputable def fixedDistanceSearch (spline : List SplinePoint)
    (refProgress targetDistance : ℝ) (shouldBeToTheRight : Bool) :
    ℕ → ℝ → ℝ → ℝ → Option ℝ → ℝ
  | 0, _, _, bestProgress, _ => bestProgress
  | k + 1, minProgress, maxProgress, bestProgress, bestDistance =>
    let midProgress := (minProgress + maxProgress) / 2
    let refPos := getPositionOnSpline spline refProgress
    let testPos := getPositionOnSpline spline midProgress
    let distance := Real.sqrt ((testPos.x - refPos.x) ^ 2 + (testPos.y - refPos.y) ^ 2)
    let isBetter : Prop :=
      match bestDistance with
      | none => True
      | some bd => |distance - targetDistance| < |bd - targetDistance|
    let bestProgress' := if isBetter then midProgress else bestProgress
    let bestDistance' := if isBetter then some distance else bestDistance
    if shouldBeToTheRight then
      if distance < targetDistance then
        fixedDistanceSearch spline refProgress targetDistance shouldBeToTheRight
          k midProgress maxProgress bestProgress' bestDistance'
      else
        fixedDistanceSearch spline refProgress targetDistance shouldBeToTheRight
          k minProgress midProgress bestProgress' bestDistance'
    else
      if distance < targetDistance then
        fixedDistanceSearch spline refProgress targetDistance shouldBeToTheRight
          k minProgress midProgress bestProgress' bestDistance'
      else
        fixedDistanceSearch spline refProgress targetDistance shouldBeToTheRight
          k midProgress maxProgress bestProgress' bestDistance'

/-- The `desiredGap` constant of `positionEntityAtFixedDistance`. -/
noncomputable def desiredGap : ℝ := 8

/-- The target center distance `positionEntityAtFixedDistance` searches for:
half the width of each entity plus the fixed 8px gap. -/
noncomputable def targetLinkDistance (referenceEntity entityToPosition : Entity) : ℝ :=
  (getEntitySize referenceEntity).width / 2 + (getEntitySize entityToPosition).width / 2
    + desiredGap

open Classical in
/-- `BaseLinkableEntitySystem.positionEntityAtFixedDistance` /
`EntitySystem.positionEntityAtFixedDistance` (identical code): no-op unless
both entities sit on the same existing track; otherwise binary-search the
progress on the correct side of the reference entity whose pixel distance to
the reference position best matches `targetLinkDistance`, then move the
entity there. -/
noncomputable def positionEntityAtFixedDistance (ts : SplineTrackSystem)
    (referenceEntity entityToPosition : Entity) : Entity :=
  match referenceEntity.currentTrack with
  | none => entityToPosition
  | some rt =>
    if referenceEntity.currentTrack ≠ entityToPosition.currentTrack then entityToPosition
    else
      match getTrack ts rt with
      | none => entityToPosition
      | some track =>
        let targetDistance := targetLinkDistance referenceEntity entityToPosition
        let currentRefPos := getPositionOnSpline track.spline referenceEntity.trackProgress
        let currentEntityPos := getPositionOnSpline track.spline entityToPosition.trackProgress
        let shouldBeToTheRight : Bool := decide (currentEntityPos.x > currentRefPos.x)
        let minProgress := if shouldBeToTheRight then referenceEntity.trackProgress else 0
        let maxProgress := if shouldBeToTheRight then 1 else referenceEntity.trackProgress
        let bestProgress := fixedDistanceSearch track.spline referenceEntity.trackProgress
          targetDistance shouldBeToTheRight 20 minProgress maxProgress
          entityToPosition.trackProgress none
        let splinePos := getPositionOnSpline track.spline bestProgress
        let entitySize := getEntitySize entityToPosition
        { entityToPosition with
            trackProgress := bestProgress,
            position := ⟨splinePos.x - entitySize.width / 2, splinePos.y - entitySize.height / 2⟩ }

namespace EntitySystem

/-- `EntitySystem.linkLocomotiveToTrainCar` (`src/unnamed/part_010`): kind and
capacity checks, symmetric link fields, completion only when the locomotive
is the car's declared target, then fixed-distance repositioning of the car.
The returned triple is (updated locomotive, updated car, success). -/
noncomputable def linkLocomotiveToTrainCar (ts : SplineTrackSystem)
    (locomotive car : Entity) : Entity × Entity × Bool :=
  if car.type ∉ locomotive.acceptedCarTypes then (locomotive, car, false)
  else if locomotive.maxCars ≤ locomotive.linkedCars.length then (locomotive, car, false)
  else
    let locomotive' := { locomotive with
      linkedCars := locomotive.linkedCars ++ [car.id],
      linkedToBack := some car.id }
    let carLinked := { car with
      linkedCars := car.linkedCars ++ [locomotive.id],
      linkedToFront := some locomotive.id }
    let carFlagged :=
      if car.targetLocomotive = some locomotive.id then
        { carLinked with isCompleted := true }
      else
        { carLinked with isCompleted := false }
    (locomotive', positionEntityAtFixedDistance ts locomotive' carFlagged, true)

open Classical in
/-- `EntitySystem.linkTrainCars`: the car with the strictly higher progress
becomes the front, links are set symmetrically, and the back car is
repositioned at the fixed distance behind the front car.  The returned triple
keeps the argument order (updated car1, updated car2, success). -/
noncomputable def linkTrainCars (ts : SplineTrackSystem) (car1 car2 : Entity) :
    Entity × Entity × Bool :=
  if car1.trackProgress > car2.trackProgress then
    let frontCar := { car1 with
      linkedToBack := some car2.id,
      linkedCars := car1.linkedCars ++ [car2.id] }
    let backCar := { car2 with
      linkedToFront := some car1.id,
      linkedCars := car2.linkedCars ++ [car1.id] }
    (frontCar, positionEntityAtFixedDistance ts frontCar backCar, true)
  else
    let frontCar := { car2 with
      linkedToBack := some car1.id,
      linkedCars := car2.linkedCars ++ [car1.id] }
    let backCar := { car1 with
      linkedToFront := some car2.id,
      linkedCars := car1.linkedCars ++ [car2.id] }
    (positionEntityAtFixedDistance ts frontCar backCar, frontCar, true)

/-- `EntitySystem.linkEntities`: refuse re-linking, then dispatch on the
entity kinds.  The returned triple keeps the argument order. -/
noncomputable def linkEntities (ts : SplineTrackSystem) (entity1 entity2 : Entity) :
    Entity × Entity × Bool :=
  if entity2.id ∈ entity1.linkedCars ∨ entity1.id ∈ entity2.linkedCars then
    (entity1, entity2, false)
  else if isLocomotive entity1 && isTrainCar entity2 then
    linkLocomotiveToTrainCar ts entity1 entity2
  else if isTrainCar entity1 && isLocomotive entity2 then
    let r := linkLocomotiveToTrainCar ts entity2 entity1
    (r.2.1, r.1, r.2.2)
  else if isTrainCar entity1 && isTrainCar entity2 then
    linkTrainCars ts entity1 entity2
  else (entity1, entity2, false)

end EntitySystem

namespace BaseLinkable

/-- `BaseLinkableEntitySystem.linkLocomotiveToTrainCar`
(`src/src/game/railyard/BaseLinkableEntitySystem.ts` lines 117-153): same
kind and capacity checks, but on success the car is unconditionally marked
completed and its `targetLocomotive` is overwritten with the linking
locomotive's id. -/
noncomputable def linkLocomotiveToTrainCar (ts : SplineTrackSystem)
    (locomotive car : Entity) : Entity × Entity × Bool :=
  if car.type ∉ locomotive.acceptedCarTypes then (locomotive, car, false)
  else if locomotive.maxCars ≤ locomotive.linkedCars.length then (locomotive, car, false)
  else
    let locomotive' := { locomotive with
      linkedCars := locomotive.linkedCars ++ [car.id],
      linkedToBack := some car.id }
    let car' := { car with
      linkedCars := car.linkedCars ++ [locomotive.id],
      linkedToFront := some locomotive.id,
      isCompleted := true,
      targetLocomotive := some locomotive.id }
    (locomotive', positionEntityAtFixedDistance ts locomotive' car', true)

end BaseLinkable

lemma positionEntity_eq_update (ts : SplineTrackSystem) (ref ent : Entity) :
    ∃ tp pos, positionEntityAtFixedDistance ts ref ent =
      { ent with trackProgress := tp, position := pos } := by
  unfold positionEntityAtFixedDistance
  split
  · exact ⟨ent.trackProgress, ent.position, rfl⟩
  · split
    · exact ⟨ent.trackProgress, ent.position, rfl⟩
    · split
      · exact ⟨ent.trackProgress, ent.position, rfl⟩
      · exact ⟨_, _, rfl⟩

@[simp] lemma positionEntity_id (ts : SplineTrackSystem) (ref ent : Entity) :
    (positionEntityAtFixedDistance ts ref ent).id = ent.id := by
  obtain ⟨tp, pos, h⟩ := positionEntity_eq_update ts ref ent; rw [h]

@[simp] lemma positionEntity_type (ts : SplineTrackSystem) (ref ent : Entity) :
    (positionEntityAtFixedDistance ts ref ent).type = ent.type := by
  obtain ⟨tp, pos, h⟩ := positionEntity_eq_update ts ref ent; rw [h]

@[simp] lemma positionEntity_linkedCars (ts : SplineTrackSystem) (ref ent : Entity) :
    (positionEntityAtFixedDistance ts ref ent).linkedCars = ent.linkedCars := by
  obtain ⟨tp, pos, h⟩ := positionEntity_eq_update ts ref ent; rw [h]

@[simp] lemma positionEntity_linkedToFront (ts : SplineTrackSystem) (ref ent : Entity) :
    (positionEntityAtFixedDistance ts ref ent).linkedToFront = ent.linkedToFront := by
  obtain ⟨tp, pos, h⟩ := positionEntity_eq_update ts ref ent; rw [h]

@[simp] lemma positionEntity_linkedToBack (ts : SplineTrackSystem) (ref ent : Entity) :
    (positionEntityAtFixedDistance ts ref ent).linkedToBack = ent.linkedToBack := by
  obtain ⟨tp, pos, h⟩ := positionEntity_eq_update ts ref ent; rw [h]

@[simp] lemma positionEntity_isCompleted (ts : SplineTrackSystem) (ref ent : Entity) :
    (positionEntityAtFixedDistance ts ref ent).isCompleted = ent.isCompleted := by
  obtain ⟨tp, pos, h⟩ := positionEntity_eq_update ts ref ent; rw [h]

@[simp] lemma positionEntity_targetLocomotive (ts : SplineTrackSystem) (ref ent : Entity) :
    (positionEntityAtFixedDistance ts ref ent).targetLocomotive = ent.targetLocomotive := by
  obtain ⟨tp, pos, h⟩ := positionEntity_eq_update ts ref ent; rw [h]

@[simp] lemma positionEntity_isDragging (ts : SplineTrackSystem) (ref ent : Entity) :
    (positionEntityAtFixedDistance ts ref ent).isDragging = ent.isDragging := by
  obtain ⟨tp, pos, h⟩ := positionEntity_eq_update ts ref ent; rw [h]

@[simp] lemma positionEntity_currentTrack (ts : SplineTrackSystem) (ref ent : Entity) :
    (positionEntityAtFixedDistance ts ref ent).currentTrack = ent.currentTrack := by
  obtain ⟨tp, pos, h⟩ := positionEntity_eq_update ts ref ent; rw [h]

lemma isLocomotive_false_of_isTrainCar {e : Entity} (h : isTrainCar e = true) :
    isLocomotive e = false := by
  simp only [isTrainCar, decide_eq_true_eq] at h
  simp [isLocomotive, h]

lemma isTrainCar_false_of_isLocomotive {e : Entity} (h : isLocomotive e = true) :
    isTrainCar e = false := by
  simp only [isLocomotive, decide_eq_true_eq] at h
  simp [isTrainCar, h]

lemma linkLoco_success_fields (ts : SplineTrackSystem) (l c : Entity)
    (hacc : c.type ∈ l.acceptedCarTypes) (hcap : l.linkedCars.length < l.maxCars) :
    EntitySystem.linkLocomotiveToTrainCar ts l c =
      ( { l with linkedCars := l.linkedCars ++ [c.id], linkedToBack := some c.id },
        positionEntityAtFixedDistance ts
          { l with linkedCars := l.linkedCars ++ [c.id], linkedToBack := some c.id }
          (if c.targetLocomotive = some l.id then
            { c with
                linkedCars := c.linkedCars ++ [l.id]
                linkedToFront := some l.id
                isCompleted := true }
          else
            { c with
                linkedCars := c.linkedCars ++ [l.id]
                linkedToFront := some l.id
                isCompleted := false }),
        true ) := by
  unfold EntitySystem.linkLocomotiveToTrainCar
  rw [if_neg (not_not_intro hacc), if_neg (not_le.mpr hcap)]

lemma baseLinkLoco_success_fields (ts : SplineTrackSystem) (l c : Entity)
    (hacc : c.type ∈ l.acceptedCarTypes) (hcap : l.linkedCars.length < l.maxCars) :
    BaseLinkable.linkLocomotiveToTrainCar ts l c =
      ( { l with linkedCars := l.linkedCars ++ [c.id], linkedToBack := some c.id },
        positionEntityAtFixedDistance ts
          { l with linkedCars := l.linkedCars ++ [c.id], linkedToBack := some c.id }
          { c with
              linkedCars := c.linkedCars ++ [l.id]
              linkedToFront := some l.id
              isCompleted := true
              targetLocomotive := some l.id },
        true ) := by
  unfold BaseLinkable.linkLocomotiveToTrainCar
  rw [if_neg (not_not_intro hacc), if_neg (not_le.mpr hcap)]

lemma linkTrainCars_front (ts : SplineTrackSystem) (c1 c2 : Entity)
    (h : c1.trackProgress > c2.trackProgress) :
    EntitySystem.linkTrainCars ts c1 c2 =
      ( { c1 with linkedToBack := some c2.id, linkedCars := c1.linkedCars ++ [c2.id] },
        positionEntityAtFixedDistance ts
          { c1 with linkedToBack := some c2.id, linkedCars := c1.linkedCars ++ [c2.id] }
          { c2 with linkedToFront := some c1.id, linkedCars := c2.linkedCars ++ [c1.id] },
        true ) := by
  unfold EntitySystem.linkTrainCars
  rw [if_pos h]

lemma linkTrainCars_back (ts : SplineTrackSystem) (c1 c2 : Entity)
    (h : ¬ c1.trackProgress > c2.trackProgress) :
    EntitySystem.linkTrainCars ts c1 c2 =
      ( positionEntityAtFixedDistance ts
          { c2 with linkedToBack := some c1.id, linkedCars := c2.linkedCars ++ [c1.id] }
          { c1 with linkedToFront := some c2.id, linkedCars := c1.linkedCars ++ [c2.id] },
        { c2 with linkedToBack := some c1.id, linkedCars := c2.linkedCars ++ [c1.id] },
        true ) := by
  unfold EntitySystem.linkTrainCars
  rw [if_neg h]

lemma linkEntities_loco_car (ts : SplineTrackSystem) (l c : Entity)
    (hl : isLocomotive l = true) (hc : isTrainCar c = true)
    (hnl : ¬ (c.id ∈ l.linkedCars ∨ l.id ∈ c.linkedCars)) :
    EntitySystem.linkEntities ts l c = EntitySystem.linkLocomotiveToTrainCar ts l c := by
  unfold EntitySystem.linkEntities
  rw [if_neg hnl, if_pos (by simp [hl, hc])]

lemma linkEntities_car_loco (ts : SplineTrackSystem) (c l : Entity)
    (hc : isTrainCar c = true) (hl : isLocomotive l = true)
    (hnl : ¬ (l.id ∈ c.linkedCars ∨ c.id ∈ l.linkedCars)) :
    EntitySystem.linkEntities ts c l =
      ((EntitySystem.linkLocomotiveToTrainCar ts l c).2.1,
       (EntitySystem.linkLocomotiveToTrainCar ts l c).1,
       (EntitySystem.linkLocomotiveToTrainCar ts l c).2.2) := by
  unfold EntitySystem.linkEntities
  rw [if_neg hnl, if_neg (by simp [isLocomotive_false_of_isTrainCar hc]),
    if_pos (by simp [hl, hc])]

lemma linkEntities_car_car (ts : SplineTrackSystem) (c1 c2 : Entity)
    (h1 : isTrainCar c1 = true) (h2 : isTrainCar c2 = true)
    (hnl : ¬ (c2.id ∈ c1.linkedCars ∨ c1.id ∈ c2.linkedCars)) :
    EntitySystem.linkEntities ts c1 c2 = EntitySystem.linkTrainCars ts c1 c2 := by
  unfold EntitySystem.linkEntities
  rw [if_neg hnl, if_neg (by simp [isLocomotive_false_of_isTrainCar h1]),
    if_neg (by simp [isLocomotive_false_of_isTrainCar h2]), if_pos (by simp [h1, h2])]

/-- Empty track system used for concrete instances. -/
noncomputable def tsEmpty : SplineTrackSystem := ⟨[], []⟩

/-- Concrete locomotive `loco_B` that accepts regular cars. -/
noncomputable def locoB : Entity :=
  { id := "loco_B", type := TrainCarType.locomotive, position := ⟨0, 0⟩, size := ⟨55, 28⟩,
    currentTrack := some "tA", trackProgress := 0, isDragging := false,
    isCompleted := false, linkedCars := [],
    acceptedCarTypes := [TrainCarType.regular], maxCars := 5 }

/-- Concrete locomotive that accepts nothing. -/
noncomputable def locoPicky : Entity :=
  { id := "loco_C", type := TrainCarType.locomotive, position := ⟨0, 0⟩, size := ⟨55, 28⟩,
    currentTrack := some "tA", trackProgress := 0, isDragging := false,
    isCompleted := false, linkedCars := [],
    acceptedCarTypes := [], maxCars := 5 }

/-- Concrete regular car whose declared target locomotive is `loco_A`. -/
noncomputable def carRed : Entity :=
  { id := "car_1", type := TrainCarType.regular, position := ⟨0, 0⟩, size := ⟨50, 22⟩,
    currentTrack := some "tB", trackProgress := 0, isDragging := false,
    isCompleted := false, linkedCars := [], targetLocomotive := some "loco_A" }

/-- Second concrete regular car (no links). -/
noncomputable def carBlue : Entity :=
  { id := "car_2", type := TrainCarType.regular, position := ⟨0, 0⟩, size := ⟨50, 22⟩,
    currentTrack := some "tC", trackProgress := 0, isDragging := false,
    isCompleted := false, linkedCars := [], targetLocomotive := none }

/-- C1 counterexample: in `BaseLinkableEntitySystem.linkLocomotiveToTrainCar`,
linking the car whose declared target is `loco_A` to the accepting locomotive
`loco_B` succeeds and nevertheless sets `isCompleted` to `true` (and
overwrites the declared target), so "isCompleted is true only if the
locomotive's id equals the car's targetLocomotive" fails on this cited code
path. -/
theorem c1_counterexample_base_always_completes :
    (BaseLinkable.linkLocomotiveToTrainCar tsEmpty locoB carRed).2.2 = true ∧
    (BaseLinkable.linkLocomotiveToTrainCar tsEmpty locoB carRed).2.1.isCompleted = true ∧
    carRed.targetLocomotive ≠ some locoB.id ∧
    (BaseLinkable.linkLocomotiveToTrainCar tsEmpty locoB carRed).2.1.targetLocomotive
      = some locoB.id := by
  refine ⟨rfl, rfl, by decide, rfl⟩

/-- C1 (amended): in `EntitySystem.linkLocomotiveToTrainCar` a link that
passes the kind and capacity checks succeeds regardless of the car's declared
target, and the car ends completed iff the locomotive is the declared target;
in `BaseLinkableEntitySystem.linkLocomotiveToTrainCar` such a link also
succeeds but unconditionally marks the car completed. -/
theorem c1_completion_iff_target (ts : SplineTrackSystem) (l c : Entity)
    (hacc : c.type ∈ l.acceptedCarTypes) (hcap : l.linkedCars.length < l.maxCars) :
    (EntitySystem.linkLocomotiveToTrainCar ts l c).2.2 = true ∧
    ((EntitySystem.linkLocomotiveToTrainCar ts l c).2.1.isCompleted = true ↔
      c.targetLocomotive = some l.id) ∧
    (BaseLinkable.linkLocomotiveToTrainCar ts l c).2.2 = true ∧
    (BaseLinkable.linkLocomotiveToTrainCar ts l c).2.1.isCompleted = true := by
  rw [linkLoco_success_fields ts l c hacc hcap, baseLinkLoco_success_fields ts l c hacc hcap]
  refine ⟨rfl, ?_, rfl, by simp⟩
  by_cases ht : c.targetLocomotive = some l.id
  · simp [ht]
  · simp [ht]

/-- C1 witness: the concrete car/locomotive pair passes the checks and the
amended theorem applies to it. -/
theorem c1_completion_iff_target_witness :
    (carRed.type ∈ locoB.acceptedCarTypes ∧ locoB.linkedCars.length < locoB.maxCars) ∧
    ((EntitySystem.linkLocomotiveToTrainCar tsEmpty locoB carRed).2.2 = true ∧
      ((EntitySystem.linkLocomotiveToTrainCar tsEmpty locoB carRed).2.1.isCompleted = true ↔
        carRed.targetLocomotive = some locoB.id) ∧
      (BaseLinkable.linkLocomotiveToTrainCar tsEmpty locoB carRed).2.2 = true ∧
      (BaseLinkable.linkLocomotiveToTrainCar tsEmpty locoB carRed).2.1.isCompleted = true) :=
  ⟨⟨by decide, by decide⟩,
    c1_completion_iff_target tsEmpty locoB carRed (by decide) (by decide)⟩

/-- C2: whenever `linkEntities` reports success, the pair it linked is
symmetric: the front one of the two records the back one in `linkedToBack`,
the back one records the front one in `linkedToFront` (so the claimed
equivalence holds with both sides true), and each id is in the other's
`linkedCars` list. -/
theorem c2_link_symmetry (ts : SplineTrackSystem) (e1 e2 : Entity)
    (h : (EntitySystem.linkEntities ts e1 e2).2.2 = true) :
    e2.id ∈ (EntitySystem.linkEntities ts e1 e2).1.linkedCars ∧
    e1.id ∈ (EntitySystem.linkEntities ts e1 e2).2.1.linkedCars ∧
    (((EntitySystem.linkEntities ts e1 e2).1.linkedToBack = some e2.id ∧
      (EntitySystem.linkEntities ts e1 e2).2.1.linkedToFront = some e1.id) ∨
     ((EntitySystem.linkEntities ts e1 e2).2.1.linkedToBack = some e1.id ∧
      (EntitySystem.linkEntities ts e1 e2).1.linkedToFront = some e2.id)) := by
  by_cases hnl : e2.id ∈ e1.linkedCars ∨ e1.id ∈ e2.linkedCars
  · exfalso
    unfold EntitySystem.linkEntities at h
    rw [if_pos hnl] at h
    exact Bool.false_ne_true h
  · by_cases hb1 : (isLocomotive e1 && isTrainCar e2) = true
    · obtain ⟨hl, hc⟩ : isLocomotive e1 = true ∧ isTrainCar e2 = true := by simpa using hb1
      rw [linkEntities_loco_car ts e1 e2 hl hc hnl] at h ⊢
      by_cases hacc : e2.type ∈ e1.acceptedCarTypes
      · by_cases hcap : e1.linkedCars.length < e1.maxCars
        · rw [linkLoco_success_fields ts e1 e2 hacc hcap]
          refine ⟨by simp, ?_, Or.inl ⟨by simp, ?_⟩⟩
          · by_cases ht : e2.targetLocomotive = some e1.id <;> simp [ht]
          · by_cases ht : e2.targetLocomotive = some e1.id <;> simp [ht]
        · exfalso
          unfold EntitySystem.linkLocomotiveToTrainCar at h
          rw [if_neg (not_not_intro hacc), if_pos (not_lt.mp hcap)] at h
          exact Bool.false_ne_true h
      · exfalso
        unfold EntitySystem.linkLocomotiveToTrainCar at h
        rw [if_pos hacc] at h
        exact Bool.false_ne_true h
    · by_cases hb2 : (isTrainCar e1 && isLocomotive e2) = true
      · obtain ⟨hc, hl⟩ : isTrainCar e1 = true ∧ isLocomotive e2 = true := by simpa using hb2
        rw [linkEntities_car_loco ts e1 e2 hc hl (by tauto)] at h ⊢
        by_cases hacc : e1.type ∈ e2.acceptedCarTypes
        · by_cases hcap : e2.linkedCars.length < e2.maxCars
          · rw [linkLoco_success_fields ts e2 e1 hacc hcap]
            refine ⟨?_, by simp, Or.inr ⟨by simp, ?_⟩⟩
            · by_cases ht : e1.targetLocomotive = some e2.id <;> simp [ht]
            · by_cases ht : e1.targetLocomotive = some e2.id <;> simp [ht]
          · exfalso
            unfold EntitySystem.linkLocomotiveToTrainCar at h
            rw [if_neg (not_not_intro hacc), if_pos (not_lt.mp hcap)] at h
            exact Bool.false_ne_true h
        · exfalso
          unfold EntitySystem.linkLocomotiveToTrainCar at h
          rw [if_pos hacc] at h
          exact Bool.false_ne_true h
      · by_cases hb3 : (isTrainCar e1 && isTrainCar e2) = true
        · obtain ⟨h1, h2⟩ : isTrainCar e1 = true ∧ isTrainCar e2 = true := by simpa using hb3
          rw [linkEntities_car_car ts e1 e2 h1 h2 hnl] at h ⊢
          by_cases hp : e1.trackProgress > e2.trackProgress
          · rw [linkTrainCars_front ts e1 e2 hp]
            exact ⟨by simp, by simp, Or.inl ⟨by simp, by simp⟩⟩
          · rw [linkTrainCars_back ts e1 e2 hp]
            exact ⟨by simp, by simp, Or.inr ⟨by simp, by simp⟩⟩
        · exfalso
          unfold EntitySystem.linkEntities at h
          rw [if_neg hnl, if_neg hb1, if_neg hb2, if_neg hb3] at h
          exact Bool.false_ne_true h

/-- C2 witness: a concrete successful locomotive-car link. -/
theorem c2_link_symmetry_witness :
    (EntitySystem.linkEntities tsEmpty locoB carRed).2.2 = true ∧
    (carRed.id ∈ (EntitySystem.linkEntities tsEmpty locoB carRed).1.linkedCars ∧
      locoB.id ∈ (EntitySystem.linkEntities tsEmpty locoB carRed).2.1.linkedCars ∧
      (((EntitySystem.linkEntities tsEmpty locoB carRed).1.linkedToBack = some carRed.id ∧
        (EntitySystem.linkEntities tsEmpty locoB carRed).2.1.linkedToFront = some locoB.id) ∨
       ((EntitySystem.linkEntities tsEmpty locoB carRed).2.1.linkedToBack = some locoB.id ∧
        (EntitySystem.linkEntities tsEmpty locoB carRed).1.linkedToFront = some carRed.id))) :=
  ⟨rfl, c2_link_symmetry tsEmpty locoB carRed rfl⟩

/-- C3: a locomotive-car `linkEntities` call that violates the kind rule or
the capacity rule returns `false` and leaves both entities exactly as they
were, in either argument order. -/
theorem c3_failed_link_leaves_state_unchanged (ts : SplineTrackSystem) (l c : Entity)
    (hl : isLocomotive l = true) (hc : isTrainCar c = true)
    (hfail : c.type ∉ l.acceptedCarTypes ∨ l.maxCars ≤ l.linkedCars.length) :
    EntitySystem.linkEntities ts l c = (l, c, false) ∧
    EntitySystem.linkEntities ts c l = (c, l, false) := by
  have hfail' : EntitySystem.linkLocomotiveToTrainCar ts l c = (l, c, false) := by
    unfold EntitySystem.linkLocomotiveToTrainCar
    rcases hfail with hk | hcap
    · rw [if_pos hk]
    · by_cases hk : c.type ∉ l.acceptedCarTypes
      · rw [if_pos hk]
      · rw [if_neg hk, if_pos hcap]
  constructor
  · by_cases hnl : c.id ∈ l.linkedCars ∨ l.id ∈ c.linkedCars
    · unfold EntitySystem.linkEntities
      rw [if_pos hnl]
    · rw [linkEntities_loco_car ts l c hl hc hnl, hfail']
  · by_cases hnl : l.id ∈ c.linkedCars ∨ c.id ∈ l.linkedCars
    · unfold EntitySystem.linkEntities
      rw [if_pos hnl]
    · rw [linkEntities_car_loco ts c l hc hl hnl, hfail']

/-- C3 witness: the locomotive that accepts no car type refuses the concrete
car in both argument orders, leaving both untouched. -/
theorem c3_failed_link_witness :
    (isLocomotive locoPicky = true ∧ isTrainCar carRed = true ∧
      (carRed.type ∉ locoPicky.acceptedCarTypes ∨
        locoPicky.maxCars ≤ locoPicky.linkedCars.length)) ∧
    (EntitySystem.linkEntities tsEmpty locoPicky carRed = (locoPicky, carRed, false) ∧
      EntitySystem.linkEntities tsEmpty carRed locoPicky = (carRed, locoPicky, false)) :=
  ⟨⟨by decide, by decide, Or.inl (by decide)⟩,
    c3_failed_link_leaves_state_unchanged tsEmpty locoPicky carRed (by decide) (by decide)
      (Or.inl (by decide))⟩

/-- C4: a car-car link never fails: for two not-yet-linked train cars
`linkEntities` returns `true`; the strictly-higher-progress car becomes the
front (ties make the second argument the front), links are set symmetrically,
and the back car is repositioned by `positionEntityAtFixedDistance`, whose
binary search targets a center distance of both half-widths plus the fixed
8px gap (`targetLinkDistance`). -/
theorem c4_car_car_link_always_succeeds (ts : SplineTrackSystem) (c1 c2 : Entity)
    (h1 : isTrainCar c1 = true) (h2 : isTrainCar c2 = true)
    (hn1 : c2.id ∉ c1.linkedCars) (hn2 : c1.id ∉ c2.linkedCars) :
    (EntitySystem.linkEntities ts c1 c2).2.2 = true ∧
    (c1.trackProgress > c2.trackProgress →
      (EntitySystem.linkEntities ts c1 c2).1.linkedToBack = some c2.id ∧
      (EntitySystem.linkEntities ts c1 c2).2.1.linkedToFront = some c1.id ∧
      (EntitySystem.linkEntities ts c1 c2).2.1 =
        positionEntityAtFixedDistance ts (EntitySystem.linkEntities ts c1 c2).1
          { c2 with linkedToFront := some c1.id, linkedCars := c2.linkedCars ++ [c1.id] }) ∧
    (¬ c1.trackProgress > c2.trackProgress →
      (EntitySystem.linkEntities ts c1 c2).2.1.linkedToBack = some c1.id ∧
      (EntitySystem.linkEntities ts c1 c2).1.linkedToFront = some c2.id ∧
      (EntitySystem.linkEntities ts c1 c2).1 =
        positionEntityAtFixedDistance ts (EntitySystem.linkEntities ts c1 c2).2.1
          { c1 with linkedToFront := some c2.id, linkedCars := c1.linkedCars ++ [c2.id] }) ∧
    targetLinkDistance c1 c2 =
      (getEntitySize c1).width / 2 + (getEntitySize c2).width / 2 + 8 := by
  have hnl : ¬ (c2.id ∈ c1.linkedCars ∨ c1.id ∈ c2.linkedCars) := by tauto
  rw [linkEntities_car_car ts c1 c2 h1 h2 hnl]
  refine ⟨?_, ?_, ?_, rfl⟩
  · by_cases hp : c1.trackProgress > c2.trackProgress
    · rw [linkTrainCars_front ts c1 c2 hp]
    · rw [linkTrainCars_back ts c1 c2 hp]
  · intro hp
    rw [linkTrainCars_front ts c1 c2 hp]
    exact ⟨by simp, by simp, rfl⟩
  · intro hp
    rw [linkTrainCars_back ts c1 c2 hp]
    exact ⟨by simp, by simp, rfl⟩

/-- C4 witness: two concrete unlinked cars satisfy the hypotheses. -/
theorem c4_car_car_link_witness :
    (isTrainCar carRed = true ∧ isTrainCar carBlue = true ∧
      carBlue.id ∉ carRed.linkedCars ∧ carRed.id ∉ carBlue.linkedCars) ∧
    (EntitySystem.linkEntities tsEmpty carRed carBlue).2.2 = true ∧
    targetLinkDistance carRed carBlue =
      (getEntitySize carRed).width / 2 + (getEntitySize carBlue).width / 2 + 8 :=
  ⟨⟨by decide, by decide, by decide, by decide⟩,
    (c4_car_car_link_always_succeeds tsEmpty carRed carBlue (by decide) (by decide)
      (by decide) (by decide)).1,
    (c4_car_car_link_always_succeeds tsEmpty carRed carBlue (by decide) (by decide)
      (by decide) (by decide)).2.2.2⟩

/-- `DragState` from `src/types/railyard.ts`; the `draggedCar` object
reference is embedded as the referenced entity's id (the maps are keyed by
id, so the reference and the id interconvert). -/
structure DragState where
  isDragging : Bool
  draggedCar : Option String
  dragOffset : Vec2
  validPositions : List Vec2

/-- The mutable state of `EntitySystem` (`src/unnamed/part_010`): the track
system it references, the entity map and the drag state. -/
structure EntityState where
  tracks : SplineTrackSystem
  entities : List Entity
  drag : DragState

/-- `this.entities.get(id)` — the entity map lookup. -/
def getEntityL (es : List Entity) (id : String) : Option Entity :=
  es.find? (fun e => e.id == id)

/-- Writing back a mutated entity object into the map (mutation through an
object reference leaves the key untouched, since ids are never reassigned). -/
def updateEntityL (es : List Entity) (e : Entity) : List Entity :=
  es.map (fun x => if x.id == e.id then e else x)

lemma getEntityL_mem {es : List Entity} {id : String} {e : Entity}
    (h : getEntityL es id = some e) : e ∈ es :=
  List.mem_of_find?_eq_some h

lemma getEntityL_id {es : List Entity} {id : String} {e : Entity}
    (h : getEntityL es id = some e) : e.id = id := by
  have := List.find?_some h
  simpa using this

/-- The ids present in the entity map. -/
def entityIds (es : List Entity) : List String := es.map Entity.id

/-- Termination measure for the visited-set loops of the source: the number
of entity ids not yet visited. -/
def chainMeasure (es : List Entity) (visited : List String) : ℕ :=
  ((entityIds es).toFinset \ visited.toFinset).card

lemma chainMeasure_lt {es : List Entity} {visited : List String} {x : String}
    (hx : x ∈ entityIds es) (hnx : x ∉ visited) :
    chainMeasure es (x :: visited) < chainMeasure es visited := by
  unfold chainMeasure
  have h1 : (x :: visited).toFinset = insert x visited.toFinset := by simp
  have h2 : (entityIds es).toFinset \ insert x visited.toFinset
      = ((entityIds es).toFinset \ visited.toFinset).erase x := by
    ext a
    simp only [Finset.mem_sdiff, Finset.mem_insert, Finset.mem_erase, List.mem_toFinset]
    tauto
  rw [h1, h2]
  exact Finset.card_erase_lt_of_mem
    (Finset.mem_sdiff.mpr ⟨List.mem_toFinset.mpr hx, by simpa using hnx⟩)

lemma chainMeasure_le_of_lt {es : List Entity} {visited : List String} {x : String}
    {n : ℕ} (hx : x ∈ entityIds es) (hnx : x ∉ visited)
    (hn : chainMeasure es visited ≤ n + 1) :
    chainMeasure es (x :: visited) ≤ n :=
  Nat.lt_succ_iff.mp (lt_of_lt_of_le (chainMeasure_lt hx hnx) hn)

/-- The first loop of `getLinkedEntitiesInOrder`: follow `linkedToFront`
until it runs out, the referenced entity is missing, or it was already
visited (the start entity itself is never added to `visited`, exactly as in
the source). -/
def findFront (es : List Entity) (visited : List String) (e : Entity) : Entity :=
  match e.linkedToFront with
  | none => e
  | some fid =>
    match hg : getEntityL es fid with
    | none => e
    | some nextEntity =>
      if hvis : nextEntity.id ∈ visited then e
      else findFront es (nextEntity.id :: visited) nextEntity
termination_by chainMeasure es visited
decreasing_by
  exact chainMeasure_lt (List.mem_map_of_mem Entity.id (getEntityL_mem hg)) hvis

/-- The second loop of `getLinkedEntitiesInOrder`, after its first iteration:
follow `linkedToBack` from `current`, collecting entities until the chain
runs out, a referenced entity is missing, or an already-visited id recurs.
(The source checks `visited.has(current.id)` at the top of each iteration;
since the map is keyed by id, the looked-up entity's id equals the id it was
looked up under, so checking before pushing is the same loop.) -/
def chainRest (es : List Entity) (visited : List String) (current : Entity) : List Entity :=
  match current.linkedToBack with
  | none => []
  | some bid =>
    match hg : getEntityL es bid with
    | none => []
    | some nextEntity =>
      if hvis : nextEntity.id ∈ visited then []
      else nextEntity :: chainRest es (nextEntity.id :: visited) nextEntity
termination_by chainMeasure es visited
decreasing_by
  exact chainMeasure_lt (List.mem_map_of_mem Entity.id (getEntityL_mem hg)) hvis

/-- `EntitySystem.getLinkedEntitiesInOrder` /
`BaseLinkableEntitySystem.getLinkedEntitiesInOrder` (identical code): find
the front-most entity, then build the chain front to back; the front entity
is always emitted first (the cleared `visited` set is empty when the second
loop first tests it). -/
def getLinkedEntitiesInOrder (es : List Entity) (startEntity : Entity) : List Entity :=
  let frontEntity := findFront es [] startEntity
  frontEntity :: chainRest es [frontEntity.id] frontEntity

lemma chainRest_spec (es : List Entity) :
    ∀ (n : ℕ) (visited : List String) (cur : Entity), chainMeasure es visited ≤ n →
      ((chainRest es visited cur).map Entity.id).Nodup ∧
      ∀ x ∈ (chainRest es visited cur).map Entity.id, x ∉ visited := by
  intro n
  induction n with
  | zero =>
    intro visited cur hn
    rw [chainRest]
    split
    · simp
    · split
      · simp
      · next nxt hg =>
        split
        · simp
        · next hvis =>
          exfalso
          have := chainMeasure_lt
            (List.mem_map_of_mem Entity.id (getEntityL_mem hg)) hvis
          omega
  | succ n ih =>
    intro visited cur hn
    rw [chainRest]
    split
    · simp
    · split
      · simp
      · next nxt hg =>
        split
        · simp
        · next hvis =>
          have hmem : nxt.id ∈ entityIds es :=
            List.mem_map_of_mem Entity.id (getEntityL_mem hg)
          have hrec := ih (nxt.id :: visited) nxt
            (chainMeasure_le_of_lt hmem hvis hn)
          refine ⟨?_, ?_⟩
          · simp only [List.map_cons, List.nodup_cons]
            refine ⟨fun hx => ?_, hrec.1⟩
            exact (hrec.2 nxt.id hx) (List.mem_cons_self nxt.id visited)
          · intro x hx
            simp only [List.map_cons, List.mem_cons] at hx
            rcases hx with hx | hx
            · exact hx ▸ hvis
            · exact fun hv => (hrec.2 x hx) (List.mem_cons_of_mem _ hv)

/-- C10: walking a chain front-to-back with `getLinkedEntitiesInOrder`
terminates (the function is defined by well-founded recursion on the number
of unvisited entity ids, mirroring the source's visited sets) and never
revisits an id: the returned list has no duplicate entity ids, for every
entity map — including ones whose `linkedToFront`/`linkedToBack` references
form cycles. -/
theorem c10_chain_walk_never_revisits (es : List Entity) (e : Entity) :
    ((getLinkedEntitiesInOrder es e).map Entity.id).Nodup := by
  unfold getLinkedEntitiesInOrder
  set front := findFront es [] e with hfront
  have h := chainRest_spec es (chainMeasure es [front.id]) [front.id] front le_rfl
  simp only [List.map_cons, List.nodup_cons]
  exact ⟨fun hx => (h.2 front.id hx) (List.mem_cons_self _ _), h.1⟩

/-- `EntitySystem.getEntity`. -/
def getEntity (s : EntityState) (id : String) : Option Entity :=
  getEntityL s.entities id

/-- `EntitySystem.getCar`: the entity under `id`, if it is a train car. -/
def getCar (s : EntityState) (id : String) : Option Entity :=
  match getEntity s id with
  | some e => if isTrainCar e then some e else none
  | none => none

/-- `EntitySystem.getLocomotive`: the entity under `id`, if it is a locomotive. -/
def getLocomotive (s : EntityState) (id : String) : Option Entity :=
  match getEntity s id with
  | some e => if isLocomotive e then some e else none
  | none => none

/-- One required `(carId, locomotiveId)` pair of a level's objectives. -/
structure RequiredConnection where
  carId : String
  locomotiveId : String

/-- `EntitySystem.checkLevelCompletion` (`src/unnamed/part_010` lines
1171-1227): for each required pair, the car and the locomotive must both be
found, each must list the other in `linkedCars`, and the car's declared
`targetLocomotive` must equal the required locomotive's id; the loop returns
`false` at the first failure and `true` once every pair holds. -/
def checkLevelCompletion (s : EntityState) : List RequiredConnection → Bool
  | [] => true
  | connection :: rest =>
    match getCar s connection.carId, getLocomotive s connection.locomotiveId with
    | some car, some locomotive =>
      if locomotive.id ∈ car.linkedCars ∧ car.id ∈ locomotive.linkedCars then
        if car.targetLocomotive = some locomotive.id then checkLevelCompletion s rest
        else false
      else false
    | _, _ => false

/-- What `checkLevelCompletion` checks for one required pair (the spec's
"both entities exist, the car's id appears in the locomotive's neighbor list
and vice versa, and the car's declared target equals the required
locomotive"). -/
def PairSatisfied (s : EntityState) (connection : RequiredConnection) : Prop :=
  ∃ car locomotive,
    getCar s connection.carId = some car ∧
    getLocomotive s connection.locomotiveId = some locomotive ∧
    locomotive.id ∈ car.linkedCars ∧ car.id ∈ locomotive.linkedCars ∧
    car.targetLocomotive = some locomotive.id

/-- C9: `checkLevelCompletion` returns `true` iff every required pair is
satisfied; consequently un-satisfying any single required pair (for example
by removing one of the two link-list memberships) makes it return `false`. -/
theorem c9_level_completion_iff (s : EntityState) (pairs : List RequiredConnection) :
    (checkLevelCompletion s pairs = true ↔ ∀ p ∈ pairs, PairSatisfied s p) ∧
    (∀ p ∈ pairs, ¬ PairSatisfied s p → checkLevelCompletion s pairs = false) := by
  have main : checkLevelCompletion s pairs = true ↔ ∀ p ∈ pairs, PairSatisfied s p := by
    induction pairs with
    | nil => simp [checkLevelCompletion]
    | cons p rest ih =>
      rw [checkLevelCompletion]
      rcases hc : getCar s p.carId with _ | car
      · constructor
        · intro h
          cases h
        · intro hall
          obtain ⟨car, loco, hcar, -⟩ := hall p (List.mem_cons_self p rest)
          rw [hc] at hcar
          cases hcar
      · rcases hl : getLocomotive s p.locomotiveId with _ | loco
        · constructor
          · intro h
            cases h
          · intro hall
            obtain ⟨car', loco', -, hloco, -⟩ := hall p (List.mem_cons_self p rest)
            rw [hl] at hloco
            cases hloco
        · by_cases hmem : loco.id ∈ car.linkedCars ∧ car.id ∈ loco.linkedCars
          · by_cases htgt : car.targetLocomotive = some loco.id
            · simp only [if_pos hmem, if_pos htgt]
              rw [ih]
              constructor
              · intro hrest q hq
                rcases List.mem_cons.mp hq with rfl | hq'
                · exact ⟨car, loco, hc, hl, hmem.1, hmem.2, htgt⟩
                · exact hrest q hq'
              · intro hall q hq
                exact hall q (List.mem_cons_of_mem p hq)
            · simp only [if_pos hmem, if_neg htgt]
              constructor
              · intro h
                cases h
              · intro hall
                obtain ⟨car', loco', hcar', hloco', -, -, htgt'⟩ :=
                  hall p (List.mem_cons_self p rest)
                rw [hc] at hcar'
                rw [hl] at hloco'
                cases hcar'
                cases hloco'
                exact (htgt htgt').elim
          · simp only [if_neg hmem]
            constructor
            · intro h
              cases h
            · intro hall
              obtain ⟨car', loco', hcar', hloco', h1, h2, -⟩ :=
                hall p (List.mem_cons_self p rest)
              rw [hc] at hcar'
              rw [hl] at hloco'
              cases hcar'
              cases hloco'
              exact (hmem ⟨h1, h2⟩).elim
  refine ⟨main, fun p hp hnp => ?_⟩
  cases h : checkLevelCompletion s pairs
  · rfl
  · exact absurd (main.mp h p hp) hnp

/-- `LocomotiveSystem.checkLevelCompletion`
(`src/src/game/railyard/SplineTrainCarSystem.ts` lines 645-669): for each
required pair only the locomotive is looked up (the inherited `getLocomotive`
existence-and-kind check) and only the locomotive-side
`linkedCars.includes(carId)` membership is tested; the car's existence, the
reciprocal link and the car's `targetLocomotive` are never consulted. -/
def LocomotiveSystem.checkLevelCompletion (s : EntityState) :
    List RequiredConnection → Bool
  | [] => true
  | requirement :: rest =>
    match getLocomotive s requirement.locomotiveId with
    | none => false
    | some locomotive =>
      if requirement.carId ∈ locomotive.linkedCars then
        LocomotiveSystem.checkLevelCompletion s rest
      else false

/-- Locomotive whose `linkedCars` names a car that does not exist, for the
C9 counterexample. -/
noncomputable def locoL : Entity :=
  { id := "loco_L", type := TrainCarType.locomotive, position := ⟨0, 0⟩, size := ⟨55, 28⟩,
    currentTrack := none, trackProgress := 0, isDragging := false,
    isCompleted := false, linkedCars := ["car_ghost"],
    acceptedCarTypes := [TrainCarType.regular], maxCars := 5 }

/-- State holding only `locoL`, for the C9 counterexample. -/
noncomputable def sC9 : EntityState :=
  { tracks := tsEmpty, entities := [locoL],
    drag := { isDragging := false, draggedCar := none,
              dragOffset := ⟨0, 0⟩, validPositions := [] } }

/-- The single required pair of the C9 counterexample. -/
def reqC9 : RequiredConnection := ⟨"car_ghost", "loco_L"⟩

/-- C9 counterexample: on a state whose locomotive lists a nonexistent car in
`linkedCars`, the cited `LocomotiveSystem.checkLevelCompletion` returns
`true` — it tests only the locomotive-side membership — even though the
required car does not exist, the claimed per-pair conditions fail
(`PairSatisfied` is false) and the also-cited `EntitySystem` implementation
returns `false`: the claimed "true iff every pair fully satisfied" is
refuted on this cited code path. -/
theorem c9_counterexample_locomotive_side_only :
    LocomotiveSystem.checkLevelCompletion sC9 [reqC9] = true ∧
    checkLevelCompletion sC9 [reqC9] = false ∧
    getCar sC9 reqC9.carId = none ∧
    ¬ PairSatisfied sC9 reqC9 := by
  refine ⟨rfl, rfl, rfl, ?_⟩
  rintro ⟨car, loco, hcar, -⟩
  rw [show getCar sC9 reqC9.carId = none from rfl] at hcar
  cases hcar

lemma updateEntityL_head_id (e u : Entity) : (if e.id == u.id then u else e).id = e.id := by
  split
  · next h => exact (beq_iff_eq.mp h).symm
  · rfl

lemma getEntityL_updateEntityL (es : List Entity) (u : Entity) (id : String) :
    getEntityL (updateEntityL es u) id
      = (getEntityL es id).map (fun x => if x.id == u.id then u else x) := by
  induction es with
  | nil => rfl
  | cons e es ih =>
    have hid : (if e.id == u.id then u else e).id = e.id := updateEntityL_head_id e u
    unfold getEntityL updateEntityL at ih ⊢
    simp only [List.map_cons, List.find?_cons, hid]
    cases he : (e.id == id)
    · simpa [he] using ih
    · simp [he]

lemma getEntityL_some_mem_ids {es : List Entity} {id : String} {e : Entity}
    (h : getEntityL es id = some e) : id ∈ entityIds es :=
  getEntityL_id h ▸ List.mem_map_of_mem Entity.id (getEntityL_mem h)

lemma getEntityL_none_not_mem {es : List Entity} {id : String}
    (h : getEntityL es id = none) : id ∉ entityIds es := by
  intro hmem
  obtain ⟨e, he, rfl⟩ := List.mem_map.mp hmem
  have := List.find?_eq_none.mp h e he
  simp at this

lemma entityIds_updateEntityL (es : List Entity) (u : Entity) :
    entityIds (updateEntityL es u) = entityIds es := by
  unfold entityIds updateEntityL
  rw [List.map_map]
  apply List.map_congr_left
  intro x _
  exact updateEntityL_head_id x u

lemma chainMeasure_updateEntityL (es : List Entity) (u : Entity) (visited : List String) :
    chainMeasure (updateEntityL es u) visited = chainMeasure es visited := by
  unfold chainMeasure
  rw [entityIds_updateEntityL]

lemma chainMeasure_cons_not_mem {es : List Entity} {x : String} (visited : List String)
    (hx : x ∉ entityIds es) :
    chainMeasure es (x :: visited) = chainMeasure es visited := by
  unfold chainMeasure
  congr 1
  ext a
  simp only [Finset.mem_sdiff, List.toFinset_cons, Finset.mem_insert, List.mem_toFinset]
  constructor
  · tauto
  · rintro ⟨ha, hb⟩
    refine ⟨ha, ?_⟩
    rintro (rfl | hc)
    · exact hx ha
    · exact hb hc

/-- The flood-fill loop of `setLinkedEntitiesDragging`
(`EntitySystem` / `BaseLinkableEntitySystem`, identical code): breadth-first
over `linkedCars`, marking every entity except the session owner (`rootId`)
with the cosmetic dragging flag.  An id is added to `visited` as soon as it
is popped, even when no entity carries it; neighbors already visited are not
enqueued. -/
def setLinkedDraggingLoop (rootId : String) (flag : Bool) :
    List Entity → List String → List String → List Entity
  | es, _, [] => es
  | es, visited, currentEntityId :: queue =>
    if hvis : currentEntityId ∈ visited then
      setLinkedDraggingLoop rootId flag es visited queue
    else
      match hg : getEntityL es currentEntityId with
      | none => setLinkedDraggingLoop rootId flag es (currentEntityId :: visited) queue
      | some currentEntity =>
        let es' := if currentEntityId ≠ rootId
          then updateEntityL es { currentEntity with isDragging := flag }
          else es
        setLinkedDraggingLoop rootId flag es' (currentEntityId :: visited)
          (queue ++ currentEntity.linkedCars.filter
            (fun linkedEntityId => decide (linkedEntityId ∉ currentEntityId :: visited)))
termination_by es visited queue => (chainMeasure es visited, queue.length)
decreasing_by
  · apply Prod.Lex.right
    simp
  · rw [chainMeasure_cons_not_mem visited (getEntityL_none_not_mem hg)]
    apply Prod.Lex.right
    simp
  · apply Prod.Lex.left
    have hlt := chainMeasure_lt (getEntityL_some_mem_ids hg) hvis
    split
    · rw [chainMeasure_updateEntityL]
      exact hlt
    · exact hlt

/-- `setLinkedEntitiesDragging(entity, isDragging)`. -/
def setLinkedEntitiesDragging (es : List Entity) (entity : Entity) (flag : Bool) :
    List Entity :=
  setLinkedDraggingLoop entity.id flag es [] [entity.id]

/-- `EntitySystem.endDrag` (`src/unnamed/part_010` lines 519-533): early
return unless a drag session is active; otherwise clear the cosmetic
dragging flags over the linked chain, clear the session owner's own flag,
and reset the drag-session fields (`validPositions` is not touched by this
implementation).  Note: no position or progress field is written. -/
def endDrag (s : EntityState) : EntityState :=
  match s.drag.isDragging, s.drag.draggedCar with
  | false, _ => s
  | true, none => s
  | true, some cid =>
    match getEntityL s.entities cid with
    | none =>
      { s with drag :=
          { isDragging := false
            draggedCar := none
            dragOffset := ⟨0, 0⟩
            validPositions := s.drag.validPositions } }
    | some entity =>
      let es1 := setLinkedEntitiesDragging s.entities entity false
      let es2 := updateEntityL es1 { entity with isDragging := false }
      { s with entities := es2
               drag :=
          { isDragging := false
            draggedCar := none
            dragOffset := ⟨0, 0⟩
            validPositions := s.drag.validPositions } }

/-- The mutable state of `SplineTrainCarSystem`
(`src/src/game/railyard/SplineTrainCarSystem.ts`). -/
structure SplineCarState where
  tracks : SplineTrackSystem
  cars : List Entity
  drag : DragState

namespace SplineCars

/-- `SplineTrainCarSystem.endDrag` (lines 105-129): clears the dragged car's
own flag, snaps the car exactly onto its spline position at its final
progress (offset by half the 35x25 car sprite), and resets the drag state;
it touches no other car and no chain. -/
noncomputable def endDrag (s : SplineCarState) : SplineCarState :=
  match s.drag.isDragging, s.drag.draggedCar with
  | false, _ => s
  | true, none => s
  | true, some cid =>
    match getEntityL s.cars cid with
    | none =>
      { s with drag :=
          { isDragging := false
            draggedCar := none
            dragOffset := s.drag.dragOffset
            validPositions := [] } }
    | some car =>
      let car1 := { car with isDragging := false }
      let car2 :=
        match car1.currentTrack with
        | none => car1
        | some tid =>
          match getTrack s.tracks tid with
          | none => car1
          | some track =>
            let splinePos := getPositionOnSpline track.spline car1.trackProgress
            { car1 with position := ⟨splinePos.x - 17.5, splinePos.y - 12.5⟩ }
      { s with cars := updateEntityL s.cars car2
               drag :=
          { isDragging := false
            draggedCar := none
            dragOffset := s.drag.dragOffset
            validPositions := [] } }

end SplineCars

/-- The link graph read by the flood fills: the `linkedCars` list of the
entity stored under an id (empty for a missing id). -/
def adj (es : List Entity) (a : String) : List String :=
  match getEntityL es a with
  | some e => e.linkedCars
  | none => []

/-- Specification-side reachability in a link graph `g`, along nodes outside
`visited` (the final node is unconstrained).  With `visited = []` this is
plain reachability — the "chain" of the spec. -/
inductive ReachesAvoiding (g : String → List String) (visited : List String) :
    String → String → Prop
  | refl (a : String) : ReachesAvoiding g visited a a
  | head {a b c : String} : a ∉ visited → b ∈ g a →
      ReachesAvoiding g visited b c → ReachesAvoiding g visited a c

/-- Every entity stored under id `x` carries dragging flag `flag`. -/
def FlagSet (flag : Bool) (es : List Entity) (x : String) : Prop :=
  ∀ e ∈ es, e.id = x → e.isDragging = flag

lemma adj_update {es : List Entity} {u cur : Entity}
    (hcur : getEntityL es u.id = some cur) (hlc : u.linkedCars = cur.linkedCars) :
    adj (updateEntityL es u) = adj es := by
  funext a
  unfold adj
  rw [getEntityL_updateEntityL]
  cases hg : getEntityL es a with
  | none => rfl
  | some e =>
    simp only [Option.map_some']
    by_cases h : (e.id == u.id) = true
    · have hea : e.id = a := getEntityL_id hg
      have heu : e.id = u.id := beq_iff_eq.mp h
      have hua : u.id = a := by rw [← heu]; exact hea
      rw [hua, hg] at hcur
      injection hcur with hcur
      subst hcur
      simp [h, hlc]
    · simp [h]

lemma mem_updateEntityL_frame {es : List Entity} {u : Entity} {x : Entity}
    (hx : x ∈ updateEntityL es u) :
    x = u ∨ x ∈ es := by
  obtain ⟨x0, hx0, rfl⟩ := List.mem_map.mp hx
  split
  · exact Or.inl rfl
  · exact Or.inr hx0

lemma reachesAvoiding_insert {g : String → List String} {visited : List String}
    {cid x : String} :
    ∀ {a : String}, ReachesAvoiding g visited a x → x ∉ visited → x ≠ cid →
      (ReachesAvoiding g (cid :: visited) a x ∧ a ≠ cid) ∨
      (∃ c ∈ g cid, c ∉ cid :: visited ∧ ReachesAvoiding g (cid :: visited) c x) := by
  intro a hra
  induction hra with
  | refl a =>
    intro hxv hxc
    exact Or.inl ⟨ReachesAvoiding.refl a, hxc⟩
  | head hA hb sub ih =>
    intro hxv hxc
    rcases ih hxv hxc with ⟨sub', hbne⟩ | hr
    · rename_i a b c
      by_cases ha : a = cid
      · subst ha
        refine Or.inr ⟨b, hb, ?_, sub'⟩
        have hbv : b ∉ visited := by
          cases sub' with
          | refl => exact hxv
          | head hB _ _ => exact fun hv => hB (List.mem_cons_of_mem _ hv)
        simp only [List.mem_cons]
        rintro (rfl | hv)
        · exact hbne rfl
        · exact hbv hv
      · refine Or.inl ⟨ReachesAvoiding.head ?_ hb sub', ha⟩
        simp only [List.mem_cons]
        rintro (rfl | hv)
        · exact ha rfl
        · exact hA hv
    · exact Or.inr hr

lemma setLinkedDraggingLoop_nil (rootId : String) (flag : Bool) (es : List Entity)
    (visited : List String) :
    setLinkedDraggingLoop rootId flag es visited [] = es := by
  rw [setLinkedDraggingLoop]

lemma setLinkedDraggingLoop_skip {cid : String} {visited : List String}
    (rootId : String) (flag : Bool) (es : List Entity) (queue : List String)
    (hvis : cid ∈ visited) :
    setLinkedDraggingLoop rootId flag es visited (cid :: queue)
      = setLinkedDraggingLoop rootId flag es visited queue := by
  rw [setLinkedDraggingLoop, dif_pos hvis]

lemma setLinkedDraggingLoop_miss {cid : String} {visited : List String}
    {es : List Entity} (rootId : String) (flag : Bool) (queue : List String)
    (hvis : cid ∉ visited) (hg : getEntityL es cid = none) :
    setLinkedDraggingLoop rootId flag es visited (cid :: queue)
      = setLinkedDraggingLoop rootId flag es (cid :: visited) queue := by
  rw [setLinkedDraggingLoop, dif_neg hvis]
  split
  · rfl
  · next ce h => rw [hg] at h; cases h

lemma setLinkedDraggingLoop_visit {cid : String} {visited : List String}
    {es : List Entity} {currentEntity : Entity} (rootId : String) (flag : Bool)
    (queue : List String) (hvis : cid ∉ visited)
    (hg : getEntityL es cid = some currentEntity) :
    setLinkedDraggingLoop rootId flag es visited (cid :: queue)
      = setLinkedDraggingLoop rootId flag
          (if cid ≠ rootId
            then updateEntityL es { currentEntity with isDragging := flag } else es)
          (cid :: visited)
          (queue ++ currentEntity.linkedCars.filter
            (fun linkedEntityId => decide (linkedEntityId ∉ cid :: visited))) := by
  rw [setLinkedDraggingLoop, dif_neg hvis]
  split
  · next h => rw [hg] at h; cases h
  · next ce h =>
    rw [hg] at h
    injection h with h
    subst h
    rfl

lemma loop_frame (rootId : String) (flag : Bool) :
    ∀ es visited queue,
      ∀ e' ∈ setLinkedDraggingLoop rootId flag es visited queue,
        ∃ e ∈ es, e'.id = e.id ∧ e'.position = e.position ∧
          e'.trackProgress = e.trackProgress ∧ e'.linkedCars = e.linkedCars ∧
          (e'.isDragging = e.isDragging ∨ e'.isDragging = flag) := by
  intro es visited queue
  induction es, visited, queue using setLinkedDraggingLoop.induct rootId flag with
  | case1 es visited =>
    intro e' he'
    rw [setLinkedDraggingLoop_nil] at he'
    exact ⟨e', he', rfl, rfl, rfl, rfl, Or.inl rfl⟩
  | case2 es visited cid queue hvis ih =>
    intro e' he'
    rw [setLinkedDraggingLoop_skip rootId flag es queue hvis] at he'
    exact ih e' he'
  | case3 es visited cid queue hvis hg ih =>
    intro e' he'
    rw [setLinkedDraggingLoop_miss rootId flag queue hvis hg] at he'
    exact ih e' he'
  | case4 es visited cid queue hvis currentEntity hg esNext ih =>
    intro e' he'
    rw [setLinkedDraggingLoop_visit rootId flag queue hvis hg] at he'
    obtain ⟨e1, he1, hid, hpos, hprog, hlc, hflag⟩ := ih e' he'
    have hesNext : esNext = if h : cid ≠ rootId
        then updateEntityL es { currentEntity with isDragging := flag } else es := rfl
    have hstep : ∃ e ∈ es, e1.id = e.id ∧ e1.position = e.position ∧
        e1.trackProgress = e.trackProgress ∧ e1.linkedCars = e.linkedCars ∧
        (e1.isDragging = e.isDragging ∨ e1.isDragging = flag) := by
      by_cases hroot : cid ≠ rootId
      · rw [hesNext, dif_pos hroot] at he1
        rcases mem_updateEntityL_frame he1 with rfl | hmem2
        · exact ⟨currentEntity, getEntityL_mem hg, rfl, rfl, rfl, rfl, Or.inr rfl⟩
        · exact ⟨e1, hmem2, rfl, rfl, rfl, rfl, Or.inl rfl⟩
      · rw [hesNext, dif_neg hroot] at he1
        exact ⟨e1, he1, rfl, rfl, rfl, rfl, Or.inl rfl⟩
    obtain ⟨e, he, hid2, hpos2, hprog2, hlc2, hflag2⟩ := hstep
    refine ⟨e, he, hid.trans hid2, hpos.trans hpos2, hprog.trans hprog2,
      hlc.trans hlc2, ?_⟩
    rcases hflag with h1 | h1
    · rcases hflag2 with h2 | h2
      · exact Or.inl (h1.trans h2)
      · exact Or.inr (h1.trans h2)
    · exact Or.inr h1

lemma loop_stable (rootId : String) (flag : Bool) :
    ∀ es visited queue x,
      FlagSet flag es x →
      FlagSet flag (setLinkedDraggingLoop rootId flag es visited queue) x := by
  intro es visited queue
  induction es, visited, queue using setLinkedDraggingLoop.induct rootId flag with
  | case1 es visited =>
    intro x hx
    rw [setLinkedDraggingLoop_nil]
    exact hx
  | case2 es visited cid queue hvis ih =>
    intro x hx
    rw [setLinkedDraggingLoop_skip rootId flag es queue hvis]
    exact ih x hx
  | case3 es visited cid queue hvis hg ih =>
    intro x hx
    rw [setLinkedDraggingLoop_miss rootId flag queue hvis hg]
    exact ih x hx
  | case4 es visited cid queue hvis currentEntity hg esNext ih =>
    intro x hx
    rw [setLinkedDraggingLoop_visit rootId flag queue hvis hg]
    have hloop : setLinkedDraggingLoop rootId flag
        (if cid ≠ rootId
          then updateEntityL es { currentEntity with isDragging := flag } else es)
        (cid :: visited)
        (queue ++ currentEntity.linkedCars.filter
          (fun linkedEntityId => decide (linkedEntityId ∉ cid :: visited)))
        = setLinkedDraggingLoop rootId flag esNext (cid :: visited)
          (queue ++ currentEntity.linkedCars.filter
            (fun linkedEntityId => decide (linkedEntityId ∉ cid :: visited))) := rfl
    rw [hloop]
    apply ih
    have hesNext : esNext = if h : cid ≠ rootId
        then updateEntityL es { currentEntity with isDragging := flag } else es := rfl
    rw [hesNext]
    by_cases hroot : cid ≠ rootId
    · rw [dif_pos hroot]
      intro e' he' hid
      rcases mem_updateEntityL_frame he' with rfl | hmem2
      · rfl
      · exact hx e' hmem2 hid
    · rw [dif_neg hroot]
      exact hx

lemma mem_updateEntityL_cases {es : List Entity} {u : Entity} {x : Entity}
    (hx : x ∈ updateEntityL es u) :
    x = u ∨ (x ∈ es ∧ x.id ≠ u.id) := by
  obtain ⟨x0, hx0, rfl⟩ := List.mem_map.mp hx
  split
  · exact Or.inl rfl
  · next h => exact Or.inr ⟨hx0, by simpa using h⟩

lemma loop_clears (rootId : String) (flag : Bool) :
    ∀ es visited queue,
      ∀ x, x ∉ visited → x ≠ rootId →
        (∃ q ∈ queue, ReachesAvoiding (adj es) visited q x) →
        FlagSet flag (setLinkedDraggingLoop rootId flag es visited queue) x := by
  intro es visited queue
  induction es, visited, queue using setLinkedDraggingLoop.induct rootId flag with
  | case1 es visited =>
    rintro x hxv hxr ⟨q, hq, -⟩
    cases hq
  | case2 es visited cid queue hvis ih =>
    rintro x hxv hxr ⟨q, hq, hra⟩
    rw [setLinkedDraggingLoop_skip rootId flag es queue hvis]
    rcases List.mem_cons.mp hq with rfl | hq'
    · cases hra with
      | refl => exact absurd hvis hxv
      | head hA _ _ => exact absurd hvis hA
    · exact ih x hxv hxr ⟨q, hq', hra⟩
  | case3 es visited cid queue hvis hg ih =>
    rintro x hxv hxr ⟨q, hq, hra⟩
    rw [setLinkedDraggingLoop_miss rootId flag queue hvis hg]
    by_cases hxc : x = cid
    · subst hxc
      intro e' he' hid
      exfalso
      obtain ⟨e, he, hid2, -, -, -, -⟩ :=
        loop_frame rootId flag es (x :: visited) queue e' he'
      apply getEntityL_none_not_mem hg
      rw [← hid, hid2]
      exact List.mem_map_of_mem Entity.id he
    · have hxv' : x ∉ cid :: visited := by
        simp only [List.mem_cons]
        rintro (rfl | hv)
        · exact hxc rfl
        · exact hxv hv
      rcases List.mem_cons.mp hq with rfl | hq'
      · rcases reachesAvoiding_insert hra hxv hxc with ⟨-, hqne⟩ | ⟨c, hc, -, -⟩
        · exact absurd rfl hqne
        · simp [adj, hg] at hc
      · rcases reachesAvoiding_insert hra hxv hxc with ⟨hra', -⟩ | ⟨c, hc, -, -⟩
        · exact ih x hxv' hxr ⟨q, hq', hra'⟩
        · simp [adj, hg] at hc
  | case4 es visited cid queue hvis currentEntity hg esNext ih =>
    rintro x hxv hxr ⟨q, hq, hra⟩
    rw [setLinkedDraggingLoop_visit rootId flag queue hvis hg]
    have hesNext : esNext = if h : cid ≠ rootId
        then updateEntityL es { currentEntity with isDragging := flag } else es := rfl
    have hloop : setLinkedDraggingLoop rootId flag
        (if cid ≠ rootId
          then updateEntityL es { currentEntity with isDragging := flag } else es)
        (cid :: visited)
        (queue ++ currentEntity.linkedCars.filter
          (fun linkedEntityId => decide (linkedEntityId ∉ cid :: visited)))
        = setLinkedDraggingLoop rootId flag esNext (cid :: visited)
          (queue ++ currentEntity.linkedCars.filter
            (fun linkedEntityId => decide (linkedEntityId ∉ cid :: visited))) := rfl
    rw [hloop]
    have hcid : currentEntity.id = cid := getEntityL_id hg
    have hadj : adj esNext = adj es := by
      rw [hesNext]
      by_cases hroot : cid ≠ rootId
      · rw [dif_pos hroot]
        apply adj_update
        · show getEntityL es ({ currentEntity with isDragging := flag } : Entity).id
            = some currentEntity
          rw [show ({ currentEntity with isDragging := flag } : Entity).id
            = currentEntity.id from rfl, hcid]
          exact hg
        · rfl
      · rw [dif_neg hroot]
    by_cases hxc : x = cid
    · subst hxc
      have hFlag : FlagSet flag esNext x := by
        rw [hesNext, dif_pos hxr]
        intro e' he' hid
        rcases mem_updateEntityL_cases he' with rfl | ⟨-, hne⟩
        · rfl
        · exact absurd (hid.trans hcid.symm) hne
      exact loop_stable rootId flag esNext (x :: visited) _ x hFlag
    · have hxv' : x ∉ cid :: visited := by
        simp only [List.mem_cons]
        rintro (rfl | hv)
        · exact hxc rfl
        · exact hxv hv
      have hpush : ∀ c, c ∈ adj es cid → c ∉ cid :: visited →
          c ∈ queue ++ currentEntity.linkedCars.filter
            (fun linkedEntityId => decide (linkedEntityId ∉ cid :: visited)) := by
        intro c hc hcnv
        refine List.mem_append.mpr (Or.inr ?_)
        rw [List.mem_filter]
        refine ⟨by simpa [adj, hg] using hc, by simpa using hcnv⟩
      rcases List.mem_cons.mp hq with rfl | hq'
      · cases hra with
        | refl => exact absurd rfl hxc
        | head hA hb sub =>
          rcases reachesAvoiding_insert sub hxv hxc with ⟨sub', hbne⟩ | ⟨c, hc, hcnv, sub'⟩
          · rename_i b
            have hbv : b ∉ visited := by
              cases sub' with
              | refl => exact hxv
              | head hB _ _ => exact fun hv => hB (List.mem_cons_of_mem _ hv)
            have hbnv : b ∉ q :: visited := by
              simp only [List.mem_cons]
              rintro (rfl | hv)
              · exact hbne rfl
              · exact hbv hv
            refine ih x hxv' hxr ⟨b, hpush b hb hbnv, ?_⟩
            rw [hadj]
            exact sub'
          · refine ih x hxv' hxr ⟨c, hpush c hc hcnv, ?_⟩
            rw [hadj]
            exact sub'
      · rcases reachesAvoiding_insert hra hxv hxc with ⟨hra', -⟩ | ⟨c, hc, hcnv, sub'⟩
        · refine ih x hxv' hxr ⟨q, List.mem_append.mpr (Or.inl hq'), ?_⟩
          rw [hadj]
          exact hra'
        · refine ih x hxv' hxr ⟨c, hpush c hc hcnv, ?_⟩
          rw [hadj]
          exact sub'

lemma endDrag_inactive (s : EntityState) (h : s.drag.isDragging = false) :
    endDrag s = s := by
  unfold endDrag
  rw [h]

lemma endDrag_nocar (s : EntityState) (h : s.drag.draggedCar = none) :
    endDrag s = s := by
  unfold endDrag
  rw [h]
  cases s.drag.isDragging <;> rfl

lemma endDrag_active {s : EntityState} {cid : String} {entity : Entity}
    (h1 : s.drag.isDragging = true) (h2 : s.drag.draggedCar = some cid)
    (hg : getEntityL s.entities cid = some entity) :
    endDrag s =
      { s with
          entities := updateEntityL (setLinkedEntitiesDragging s.entities entity false)
            { entity with isDragging := false }
          drag :=
            { isDragging := false
              draggedCar := none
              dragOffset := ⟨0, 0⟩
              validPositions := s.drag.validPositions } } := by
  unfold endDrag
  rw [h1, h2]
  simp only [hg]

lemma endDrag_active_missing {s : EntityState} {cid : String}
    (h1 : s.drag.isDragging = true) (h2 : s.drag.draggedCar = some cid)
    (hg : getEntityL s.entities cid = none) :
    endDrag s =
      { s with drag :=
          { isDragging := false
            draggedCar := none
            dragOffset := ⟨0, 0⟩
            validPositions := s.drag.validPositions } } := by
  unfold endDrag
  rw [h1, h2]
  simp only [hg]

/-- C5 (amended): `EntitySystem.endDrag` is a no-op when no drag session is
active; when one is active it clears the cosmetic dragging flags on every
entity of the dragged chain (everything reachable from the session owner
through `linkedCars`, the owner included), returns the session to Idle, and
leaves every entity's `position` and `trackProgress` untouched — the "snap
onto the spline position at the final progress" of the claim is not
performed by this implementation; it is `SplineTrainCarSystem.endDrag` that
snaps the dragged car (and clears only that car's own flag), as the last two
conjuncts state.  -/
theorem c5_end_drag_behavior (s : EntityState) (s2 : SplineCarState) :
    (s.drag.isDragging = false ∨ s.drag.draggedCar = none → endDrag s = s) ∧
    (∀ cid, s.drag.isDragging = true → s.drag.draggedCar = some cid →
      (endDrag s).drag.isDragging = false ∧ (endDrag s).drag.draggedCar = none) ∧
    (∀ e' ∈ (endDrag s).entities, ∃ e ∈ s.entities, e'.id = e.id ∧
      e'.position = e.position ∧ e'.trackProgress = e.trackProgress) ∧
    (∀ cid entity, s.drag.isDragging = true → s.drag.draggedCar = some cid →
      getEntityL s.entities cid = some entity →
      ∀ x, ReachesAvoiding (adj s.entities) [] cid x →
        FlagSet false (endDrag s).entities x) ∧
    (∀ cid car tid track, s2.drag.isDragging = true → s2.drag.draggedCar = some cid →
      getEntityL s2.cars cid = some car → car.currentTrack = some tid →
      getTrack s2.tracks tid = some track →
      (∀ e' ∈ (SplineCars.endDrag s2).cars, e'.id = car.id →
        e'.position = ⟨(getPositionOnSpline track.spline car.trackProgress).x - 17.5,
          (getPositionOnSpline track.spline car.trackProgress).y - 12.5⟩ ∧
        e'.isDragging = false) ∧
      (SplineCars.endDrag s2).drag.isDragging = false) ∧
    (s2.drag.isDragging = false → SplineCars.endDrag s2 = s2) := by
  refine ⟨?_, ?_, ?_, ?_, ?_, ?_⟩
  · rintro (h | h)
    · exact endDrag_inactive s h
    · exact endDrag_nocar s h
  · intro cid h1 h2
    rcases hg : getEntityL s.entities cid with _ | entity
    · rw [endDrag_active_missing h1 h2 hg]
      exact ⟨rfl, rfl⟩
    · rw [endDrag_active h1 h2 hg]
      exact ⟨rfl, rfl⟩
  · intro e' he'
    rcases h1 : s.drag.isDragging with _ | _
    · rw [endDrag_inactive s h1] at he'
      exact ⟨e', he', rfl, rfl, rfl⟩
    · rcases h2 : s.drag.draggedCar with _ | cid
      · rw [endDrag_nocar s h2] at he'
        exact ⟨e', he', rfl, rfl, rfl⟩
      · rcases hg : getEntityL s.entities cid with _ | entity
        · rw [endDrag_active_missing h1 h2 hg] at he'
          exact ⟨e', he', rfl, rfl, rfl⟩
        · rw [endDrag_active h1 h2 hg] at he'
          rcases mem_updateEntityL_cases he' with rfl | ⟨hmem, -⟩
          · exact ⟨entity, getEntityL_mem hg, rfl, rfl, rfl⟩
          · obtain ⟨e, he, hid, hpos, hprog, -, -⟩ :=
              loop_frame entity.id false s.entities [] [entity.id] e' hmem
            exact ⟨e, he, hid, hpos, hprog⟩
  · intro cid entity h1 h2 hg x hra
    rw [endDrag_active h1 h2 hg]
    have hcid : entity.id = cid := getEntityL_id hg
    by_cases hxc : x = cid
    · subst hxc
      intro e' he' hid
      rcases mem_updateEntityL_cases he' with rfl | ⟨-, hne⟩
      · rfl
      · exact absurd (hid.trans hcid.symm) hne
    · have hF1 : FlagSet false (setLinkedEntitiesDragging s.entities entity false) x := by
        unfold setLinkedEntitiesDragging
        refine loop_clears entity.id false s.entities [] [entity.id] x (by simp) ?_ ?_
        · rw [hcid]; exact hxc
        · exact ⟨entity.id, List.mem_cons_self _ _, hcid ▸ hra⟩
      intro e' he' hid
      rcases mem_updateEntityL_cases he' with rfl | ⟨hmem, -⟩
      · rfl
      · exact hF1 e' hmem hid
  · intro cid car tid track h1 h2 hg htid htrack
    have hend : SplineCars.endDrag s2 =
        { s2 with
            cars := updateEntityL s2.cars
              { car with
                  isDragging := false
                  position := ⟨(getPositionOnSpline track.spline car.trackProgress).x - 17.5,
                    (getPositionOnSpline track.spline car.trackProgress).y - 12.5⟩ }
            drag :=
              { isDragging := false
                draggedCar := none
                dragOffset := s2.drag.dragOffset
                validPositions := [] } } := by
      unfold SplineCars.endDrag
      rw [h1, h2]
      simp only [hg, htid, htrack]
    rw [hend]
    refine ⟨?_, rfl⟩
    intro e' he' hid
    rcases mem_updateEntityL_cases he' with rfl | ⟨-, hne⟩
    · exact ⟨rfl, rfl⟩
    · exact absurd hid hne
  · intro h
    unfold SplineCars.endDrag
    rw [h]

/-- Concrete straight track used by the C5 counterexample. -/
noncomputable def trackT : TrackSegment := ⟨"t", [⟨⟨0, 0⟩⟩, ⟨⟨100, 0⟩⟩], true⟩

/-- Concrete track system holding only `trackT`. -/
noncomputable def tsT : SplineTrackSystem := ⟨[trackT], []⟩

/-- A dragged car sitting off its spline position (position `(0,0)` while its
progress point is `(50,0)`). -/
noncomputable def eDrag : Entity :=
  { id := "car_1", type := TrainCarType.regular, position := ⟨0, 0⟩, size := ⟨50, 22⟩,
    currentTrack := some "t", trackProgress := 1/2, isDragging := true,
    isCompleted := false, linkedCars := [] }

/-- An active `EntitySystem` drag session on `eDrag`. -/
noncomputable def sC5 : EntityState :=
  { tracks := tsT, entities := [eDrag],
    drag := { isDragging := true, draggedCar := some "car_1",
              dragOffset := ⟨3, 4⟩, validPositions := [] } }

/-- C5 counterexample: ending the active session on the concrete state
`sC5` clears the flag and the session, but leaves the entity's position at
`(0,0)`, which differs from the spline position `(50,0)` at its progress
under every centering convention — `EntitySystem.endDrag` performs no snap,
contrary to the claim. -/
theorem c5_counterexample_no_snap :
    (endDrag sC5).drag.isDragging = false ∧
    getEntityL (endDrag sC5).entities "car_1" = some { eDrag with isDragging := false } ∧
    ({ eDrag with isDragging := false } : Entity).position = ⟨0, 0⟩ ∧
    getPositionOnSpline trackT.spline eDrag.trackProgress = ⟨50, 0⟩ ∧
    (0 : ℝ) ≠ 50 - 25 ∧ (0 : ℝ) ≠ 50 - 17.5 ∧ (0 : ℝ) ≠ 50 := by
  have hes1 : setLinkedEntitiesDragging sC5.entities eDrag false = [eDrag] := by
    unfold setLinkedEntitiesDragging
    rw [setLinkedDraggingLoop_visit eDrag.id false [] (by simp) (by rfl)]
    rw [if_neg (not_not_intro rfl)]
    show setLinkedDraggingLoop eDrag.id false sC5.entities ["car_1"] [] = [eDrag]
    rw [setLinkedDraggingLoop_nil]
    rfl
  have hend := @endDrag_active sC5 "car_1" eDrag rfl rfl rfl
  rw [hes1] at hend
  refine ⟨by rw [hend], ?_, rfl, ?_, by norm_num, by norm_num, by norm_num⟩
  · rw [hend]
    rfl
  · show getPositionOnSpline [⟨⟨0, 0⟩⟩, ⟨⟨100, 0⟩⟩] (1/2) = ⟨50, 0⟩
    unfold getPositionOnSpline
    norm_num
    rw [clamp01_of_mem (by norm_num) (by norm_num)]
    unfold lerp
    ext <;> norm_num

/-- Generic visited-set measure: how many of `ids` are not yet visited. -/
def visitMeasure (ids : List String) (visited : List String) : ℕ :=
  (ids.toFinset \ visited.toFinset).card

lemma visitMeasure_lt {ids visited : List String} {x : String}
    (hx : x ∈ ids) (hnx : x ∉ visited) :
    visitMeasure ids (x :: visited) < visitMeasure ids visited := by
  unfold visitMeasure
  have h1 : (x :: visited).toFinset = insert x visited.toFinset := by simp
  have h2 : ids.toFinset \ insert x visited.toFinset
      = (ids.toFinset \ visited.toFinset).erase x := by
    ext a
    simp only [Finset.mem_sdiff, Finset.mem_insert, Finset.mem_erase, List.mem_toFinset]
    tauto
  rw [h1, h2]
  exact Finset.card_erase_lt_of_mem
    (Finset.mem_sdiff.mpr ⟨List.mem_toFinset.mpr hx, by simpa using hnx⟩)

lemma visitMeasure_cons_not_mem {ids : List String} {x : String} (visited : List String)
    (hx : x ∉ ids) :
    visitMeasure ids (x :: visited) = visitMeasure ids visited := by
  unfold visitMeasure
  congr 1
  ext a
  simp only [Finset.mem_sdiff, List.toFinset_cons, Finset.mem_insert, List.mem_toFinset]
  constructor
  · tauto
  · rintro ⟨ha, hb⟩
    refine ⟨ha, ?_⟩
    rintro (rfl | hc)
    · exact hx ha
    · exact hb hc

/-- The ids of the tracks in the system. -/
def trackIds (ts : SplineTrackSystem) : List String := ts.tracks.map TrackSegment.id

lemma getTrack_mem {ts : SplineTrackSystem} {id : String} {tr : TrackSegment}
    (h : getTrack ts id = some tr) : tr ∈ ts.tracks :=
  List.mem_of_find?_eq_some h

lemma getTrack_id {ts : SplineTrackSystem} {id : String} {tr : TrackSegment}
    (h : getTrack ts id = some tr) : tr.id = id := by
  have := List.find?_some h
  simpa using this

lemma getTrack_mem_ids {ts : SplineTrackSystem} {id : String} {tr : TrackSegment}
    (h : getTrack ts id = some tr) : id ∈ trackIds ts :=
  getTrack_id h ▸ List.mem_map_of_mem TrackSegment.id (getTrack_mem h)

lemma getTrack_none_not_mem {ts : SplineTrackSystem} {id : String}
    (h : getTrack ts id = none) : id ∉ trackIds ts := by
  intro hmem
  obtain ⟨tr, htr, rfl⟩ := List.mem_map.mp hmem
  have := List.find?_eq_none.mp h tr htr
  simp at this

/-- The parameters sampled by `for (let t = 0; t <= 1; t += 0.1)` in exact
arithmetic: `0, 0.1, ..., 1`. -/
noncomputable def sampleParamsTenth : List ℝ :=
  (List.range 11).map (fun i => (i : ℝ) / 10)

/-- The sampled drag-target positions of one track: the spline point at each
sampled `t`, offset by half the car sprite (`x - 17.5`, `y - 12.5`). -/
noncomputable def trackSamplePositions (track : TrackSegment) : List Vec2 :=
  sampleParamsTenth.map (fun t =>
    let splinePos := getPositionOnSpline track.spline t
    (⟨splinePos.x - 17.5, splinePos.y - 12.5⟩ : Vec2))

/-- The BFS loop of `SplineTrackSystem.getValidMovePositions`
(`src/unnamed/part_010` lines 151-195): pop `(trackId, distance)`; skip it
when already visited or past `maxDistance`; otherwise mark it visited and,
if the track exists, emit its sampled positions when it is the starting pop
(`distance === 0`) or unoccupied, and enqueue its unvisited neighbors at
`distance + 1`. -/
noncomputable def validMoveLoop (ts : SplineTrackSystem) (maxDistance : ℕ) :
    List String → List (String × ℕ) → List Vec2
  | _, [] => []
  | visited, (trackId, distance) :: queue =>
    if hskip : trackId ∈ visited ∨ maxDistance < distance then
      validMoveLoop ts maxDistance visited queue
    else
      match hg : getTrack ts trackId with
      | none => validMoveLoop ts maxDistance (trackId :: visited) queue
      | some track =>
        (if distance = 0 ∨ track.occupied = false then trackSamplePositions track else [])
          ++ validMoveLoop ts maxDistance (trackId :: visited)
            (queue ++ ((getConnectedTracks ts trackId).filter
              (fun connectedId => decide (connectedId ∉ trackId :: visited))).map
              (fun connectedId => (connectedId, distance + 1)))
termination_by visited queue => (visitMeasure (trackIds ts) visited, queue.length)
decreasing_by
  · apply Prod.Lex.right
    simp
  · rw [visitMeasure_cons_not_mem visited (getTrack_none_not_mem hg)]
    apply Prod.Lex.right
    simp
  · apply Prod.Lex.left
    exact visitMeasure_lt (getTrack_mem_ids hg) (fun hv => hskip (Or.inl hv))

/-- `SplineTrackSystem.getValidMovePositions(fromTrackId, maxDistance)`. -/
noncomputable def getValidMovePositions (ts : SplineTrackSystem) (fromTrackId : String)
    (maxDistance : ℕ) : List Vec2 :=
  validMoveLoop ts maxDistance [] [(fromTrackId, 0)]

lemma validMoveLoop_nil (ts : SplineTrackSystem) (maxDistance : ℕ)
    (visited : List String) :
    validMoveLoop ts maxDistance visited [] = [] := by
  rw [validMoveLoop]

lemma validMoveLoop_skip {ts : SplineTrackSystem} {maxDistance : ℕ}
    {visited : List String} {trackId : String} {distance : ℕ}
    (queue : List (String × ℕ))
    (hskip : trackId ∈ visited ∨ maxDistance < distance) :
    validMoveLoop ts maxDistance visited ((trackId, distance) :: queue)
      = validMoveLoop ts maxDistance visited queue := by
  rw [validMoveLoop, dif_pos hskip]

lemma validMoveLoop_miss {ts : SplineTrackSystem} {maxDistance : ℕ}
    {visited : List String} {trackId : String} {distance : ℕ}
    (queue : List (String × ℕ))
    (hskip : ¬ (trackId ∈ visited ∨ maxDistance < distance))
    (hg : getTrack ts trackId = none) :
    validMoveLoop ts maxDistance visited ((trackId, distance) :: queue)
      = validMoveLoop ts maxDistance (trackId :: visited) queue := by
  rw [validMoveLoop, dif_neg hskip]
  split
  · rfl
  · next tr h => rw [hg] at h; cases h

lemma validMoveLoop_visit {ts : SplineTrackSystem} {maxDistance : ℕ}
    {visited : List String} {trackId : String} {distance : ℕ} {track : TrackSegment}
    (queue : List (String × ℕ))
    (hskip : ¬ (trackId ∈ visited ∨ maxDistance < distance))
    (hg : getTrack ts trackId = some track) :
    validMoveLoop ts maxDistance visited ((trackId, distance) :: queue)
      = (if distance = 0 ∨ track.occupied = false then trackSamplePositions track else [])
          ++ validMoveLoop ts maxDistance (trackId :: visited)
            (queue ++ ((getConnectedTracks ts trackId).filter
              (fun connectedId => decide (connectedId ∉ trackId :: visited))).map
              (fun connectedId => (connectedId, distance + 1))) := by
  rw [validMoveLoop, dif_neg hskip]
  split
  · next h => rw [hg] at h; cases h
  · next tr h =>
    rw [hg] at h
    injection h with h
    subst h
    rfl

/-- Specification-side reachability in the track connection graph: a path of
exactly `n` edges from `start`. -/
inductive TrackReach (ts : SplineTrackSystem) (start : String) : String → ℕ → Prop
  | refl : TrackReach ts start start 0
  | step {a b : String} {n : ℕ} : TrackReach ts start a n →
      b ∈ getConnectedTracks ts a → TrackReach ts start b (n + 1)

lemma trackReach_zero {ts : SplineTrackSystem} {start t : String}
    (h : TrackReach ts start t 0) : t = start := by
  cases h
  rfl

lemma validMoveLoop_sound (ts : SplineTrackSystem) (maxDistance : ℕ)
    (start : String) :
    ∀ visited queue,
      (∀ q ∈ queue, TrackReach ts start (Prod.fst q) (Prod.snd q)) →
      ∀ p ∈ validMoveLoop ts maxDistance visited queue,
        ∃ trackId tr d, getTrack ts trackId = some tr ∧
          p ∈ trackSamplePositions tr ∧ d ≤ maxDistance ∧
          TrackReach ts start trackId d ∧
          (trackId = start ∨ tr.occupied = false) := by
  intro visited queue
  induction visited, queue using validMoveLoop.induct ts maxDistance with
  | case1 visited =>
    intro _ p hp
    rw [validMoveLoop_nil] at hp
    cases hp
  | case2 visited trackId distance queue hskip ih =>
    intro hq p hp
    rw [validMoveLoop_skip queue hskip] at hp
    exact ih (fun q hq' => hq q (List.mem_cons_of_mem _ hq')) p hp
  | case3 visited trackId distance queue hskip hg ih =>
    intro hq p hp
    rw [validMoveLoop_miss queue hskip hg] at hp
    exact ih (fun q hq' => hq q (List.mem_cons_of_mem _ hq')) p hp
  | case4 visited trackId distance queue hskip track hg ih =>
    intro hq p hp
    rw [validMoveLoop_visit queue hskip hg] at hp
    rcases List.mem_append.mp hp with hp1 | hp2
    · by_cases hc : distance = 0 ∨ track.occupied = false
      · rw [if_pos hc] at hp1
        have hd : distance ≤ maxDistance := by
          rcases Nat.lt_or_ge maxDistance distance with hlt | hge
          · exact absurd (Or.inr hlt) hskip
          · exact hge
        have hreach : TrackReach ts start trackId distance :=
          hq (trackId, distance) (List.mem_cons_self _ _)
        refine ⟨trackId, track, distance, hg, hp1, hd, hreach, ?_⟩
        rcases hc with hc | hc
        · exact Or.inl (trackReach_zero (hc ▸ hreach))
        · exact Or.inr hc
      · rw [if_neg hc] at hp1
        cases hp1
    · refine ih ?_ p hp2
      intro q hq'
      rcases List.mem_append.mp hq' with hq1 | hq1
      · exact hq q (List.mem_cons_of_mem _ hq1)
      · obtain ⟨cId, hcId, rfl⟩ := List.mem_map.mp hq1
        have hcconn : cId ∈ getConnectedTracks ts trackId :=
          (List.mem_filter.mp hcId).1
        exact TrackReach.step (hq (trackId, distance) (List.mem_cons_self _ _)) hcconn

/-- C8: the sampled positions of the starting track are always returned
(even when that track is occupied), and every returned position comes from a
track that exists, is reachable from the start within `maxDistance` edges of
the connection graph, and is either the starting track itself or unoccupied
— in particular no position of a track farther than `maxDistance` hops is
ever returned. -/
theorem c8_valid_move_positions (ts : SplineTrackSystem) (fromTrackId : String)
    (maxDistance : ℕ) :
    (∀ tr, getTrack ts fromTrackId = some tr →
      ∀ p ∈ trackSamplePositions tr,
        p ∈ getValidMovePositions ts fromTrackId maxDistance) ∧
    (∀ p ∈ getValidMovePositions ts fromTrackId maxDistance,
      ∃ trackId tr d, getTrack ts trackId = some tr ∧
        p ∈ trackSamplePositions tr ∧ d ≤ maxDistance ∧
        TrackReach ts fromTrackId trackId d ∧
        (trackId = fromTrackId ∨ tr.occupied = false)) := by
  constructor
  · intro tr htr p hp
    unfold getValidMovePositions
    rw [validMoveLoop_visit [] (by simp) htr, if_pos (Or.inl rfl)]
    exact List.mem_append.mpr (Or.inl hp)
  · intro p hp
    refine validMoveLoop_sound ts maxDistance fromTrackId [] [(fromTrackId, 0)] ?_ p hp
    intro q hq
    rcases List.mem_cons.mp hq with rfl | hq'
    · exact TrackReach.refl
    · cases hq'

/-- Result record of `findClosestPointOnSpline`. -/
structure ClosestPoint where
  t : ℝ
  position : Vec2
  distance : ℝ

/-- The parameters sampled by `for (let t = 0; t <= 1; t += 0.01)` in exact
arithmetic: `0, 0.01, ..., 1`. -/
noncomputable def sampleParamsHundredth : List ℝ :=
  (List.range 101).map (fun i => (i : ℝ) / 100)

open Classical in
/-- `SplineTrackSystem.findClosestPointOnSpline`: fixed-step sampling search
for the parameter minimizing the distance to `position`, seeded with the
`t = 0` sample. -/
noncomputable def findClosestPointOnSpline (spline : List SplinePoint)
    (position : Vec2) : ClosestPoint :=
  let closestPosition := getPositionOnSpline spline 0
  let init : ClosestPoint := ⟨0, closestPosition, calculateDistance position closestPosition⟩
  sampleParamsHundredth.foldl (fun closest t =>
    let splinePos := getPositionOnSpline spline t
    let distance := calculateDistance position splinePos
    if distance < closest.distance then ⟨t, splinePos, distance⟩ else closest) init

/-- `EntitySystem.isTrackOccupiedByOtherEntity`. -/
def isTrackOccupiedByOtherEntity (es : List Entity) (trackId : String)
    (excludeEntityId : String) : Bool :=
  es.any (fun entity =>
    decide (entity.id ≠ excludeEntityId) && decide (entity.currentTrack = some trackId))

/-- Result record of `findClosestSplinePosition`. -/
structure SplineHit where
  trackId : String
  t : ℝ
  position : Vec2
  distance : ℝ

open Classical in
/-- `EntitySystem.findClosestSplinePosition`: best closest-point result over
the current track and its neighbors, skipping neighbor tracks occupied by an
entity other than the dragged one. -/
noncomputable def findClosestSplinePosition (s : EntityState) (targetPosition : Vec2)
    (currentTrackId : String) (draggedId : String) : Option SplineHit :=
  let tracksToCheck := currentTrackId :: getConnectedTracks s.tracks currentTrackId
  tracksToCheck.foldl (fun bestResult trackId =>
    match getTrack s.tracks trackId with
    | none => bestResult
    | some track =>
      if trackId ≠ currentTrackId ∧
          isTrackOccupiedByOtherEntity s.entities trackId draggedId = true then
        bestResult
      else
        let result := findClosestPointOnSpline track.spline targetPosition
        match bestResult with
        | none => some ⟨trackId, result.t, result.position, result.distance⟩
        | some best =>
          if result.distance < best.distance then
            some ⟨trackId, result.t, result.position, result.distance⟩
          else bestResult) none

/-- The flood fill of `EntitySystem.getAllLinkedEntityIds` (`part_010`): the
set of ids transitively linked through `linkedCars`, including the start
entity's own id. -/
def getAllLinkedEntityIdsLoop (es : List Entity) :
    List String → List String → List String
  | linkedIds, [] => linkedIds
  | linkedIds, currentId :: queue =>
    if hvis : currentId ∈ linkedIds then getAllLinkedEntityIdsLoop es linkedIds queue
    else
      match hg : getEntityL es currentId with
      | none => getAllLinkedEntityIdsLoop es (currentId :: linkedIds) queue
      | some currentEntity =>
        getAllLinkedEntityIdsLoop es (currentId :: linkedIds)
          (queue ++ currentEntity.linkedCars.filter
            (fun linkedId => decide (linkedId ∉ currentId :: linkedIds)))
termination_by linkedIds queue => (chainMeasure es linkedIds, queue.length)
decreasing_by
  · apply Prod.Lex.right
    simp
  · rw [chainMeasure_cons_not_mem linkedIds (getEntityL_none_not_mem hg)]
    apply Prod.Lex.right
    simp
  · apply Prod.Lex.left
    exact chainMeasure_lt (getEntityL_some_mem_ids hg) hvis

/-- `EntitySystem.getAllLinkedEntityIds`. -/
def getAllLinkedEntityIds (es : List Entity) (entity : Entity) : List String :=
  getAllLinkedEntityIdsLoop es [] [entity.id]

/-- `EntitySystem.pixelDistanceToProgressDelta`: pixel distance divided by the
100-chord estimate of the track length (0 for a missing track). -/
noncomputable def pixelDistanceToProgressDelta (ts : SplineTrackSystem)
    (pixelDistance : ℝ) (trackId : String) : ℝ :=
  match getTrack ts trackId with
  | none => 0
  | some track =>
    let totalLength := ((List.range 100).map (fun i =>
      let pos1 := getPositionOnSpline track.spline ((i : ℝ) / 100)
      let pos2 := getPositionOnSpline track.spline (((i : ℝ) + 1) / 100)
      Real.sqrt ((pos2.x - pos1.x) ^ 2 + (pos2.y - pos1.y) ^ 2))).sum
    pixelDistance / totalLength

/-- Result record of `checkCollisionsForLinkedEntity`. -/
structure CollisionResult where
  canMove : Bool
  adjustedProgress : ℝ
  linkedEntity : Option Entity

open Classical in
/-- The entity loop inside `checkCollisionsForLinkedEntity`: propose a link
for the first non-linked entity within the linking threshold; push back to
the 5px minimum edge separation when too close; otherwise keep scanning. -/
noncomputable def collisionScan (ts : SplineTrackSystem) (movingEntity : Entity)
    (targetProgress : ℝ) (tempEntity : Entity) : List Entity → CollisionResult
  | [] => ⟨true, targetProgress, none⟩
  | otherEntity :: rest =>
    let edgeDistance := getEdgeToEdgeDistance ts tempEntity otherEntity
    if (match edgeDistance with
        | some d => d ≤ TRAIN_CAR_LINKING_DISTANCE
        | none => False) ∧ otherEntity.id ∉ movingEntity.linkedCars then
      ⟨true, targetProgress, some otherEntity⟩
    else if (match edgeDistance with
        | some d => d < 5
        | none => False) then
      match movingEntity.currentTrack with
      | none => collisionScan ts movingEntity targetProgress tempEntity rest
      | some tid =>
        match getTrack ts tid with
        | none => collisionScan ts movingEntity targetProgress tempEntity rest
        | some _ =>
          let movingSize := getEntitySize movingEntity
          let otherSize := getEntitySize otherEntity
          let requiredCenterDistance := movingSize.width / 2 + otherSize.width / 2 + 5
          let progressDelta := pixelDistanceToProgressDelta ts requiredCenterDistance tid
          let pushDirection : ℝ :=
            if targetProgress > otherEntity.trackProgress then 1 else -1
          let adjustedProgress := otherEntity.trackProgress + pushDirection * progressDelta
          ⟨true, max 0 (min 1 adjustedProgress), none⟩
    else collisionScan ts movingEntity targetProgress tempEntity rest

/-- `EntitySystem.checkCollisionsForLinkedEntity`: scan the other entities on
the moving entity's track that are not transitively linked to it, with the
moving entity virtually placed at `targetProgress`. -/
noncomputable def checkCollisionsForLinkedEntity (s : EntityState)
    (movingEntity : Entity) (targetProgress : ℝ) : CollisionResult :=
  match movingEntity.currentTrack with
  | none => ⟨true, targetProgress, none⟩
  | some _ =>
    let linkedEntityIds := getAllLinkedEntityIds s.entities movingEntity
    let entitiesOnSameTrack := s.entities.filter (fun entity =>
      decide (entity.currentTrack = movingEntity.currentTrack) &&
      decide (entity.id ≠ movingEntity.id) &&
      decide (entity.id ∉ linkedEntityIds))
    let tempEntity := { movingEntity with trackProgress := targetProgress }
    collisionScan s.tracks movingEntity targetProgress tempEntity entitiesOnSameTrack

open Classical in
/-- The chain loop of `EntitySystem.moveLinkedEntitiesRelative`, threading
the entity map and the (already updated) entity in front of the current one:
every chain member except the dragged one is repositioned at the fixed
distance behind its updated front neighbor; a member with no front neighbor
is shifted by the clamped progress delta and re-seated on its spline. -/
noncomputable def moveChainStep (ts : SplineTrackSystem) (draggedId : String)
    (deltaProgress : ℝ) : List Entity → Option Entity → List Entity → List Entity
  | es, _, [] => es
  | es, prevOpt, entity :: rest =>
    if entity.id = draggedId then
      moveChainStep ts draggedId deltaProgress es (some entity) rest
    else
      match prevOpt with
      | some frontEntity =>
        let entity' := positionEntityAtFixedDistance ts frontEntity entity
        moveChainStep ts draggedId deltaProgress (updateEntityL es entity')
          (some entity') rest
      | none =>
        let newProgress := max 0 (min 1 (entity.trackProgress + deltaProgress))
        let entity1 := { entity with trackProgress := newProgress }
        let entity2 :=
          match entity1.currentTrack with
          | none => entity1
          | some tid =>
            match getTrack ts tid with
            | none => entity1
            | some track =>
              let splinePos := getPositionOnSpline track.spline newProgress
              let entitySize := getEntitySize entity1
              { entity1 with position :=
                  ⟨splinePos.x - entitySize.width / 2, splinePos.y - entitySize.height / 2⟩ }
        moveChainStep ts draggedId deltaProgress (updateEntityL es entity2)
          (some entity2) rest

/-- `EntitySystem.moveLinkedEntitiesRelative`. -/
noncomputable def moveLinkedEntitiesRelative (s : EntityState)
    (draggedEntity : Entity) (deltaProgress : ℝ) : List Entity :=
  moveChainStep s.tracks draggedEntity.id deltaProgress s.entities none
    (getLinkedEntitiesInOrder s.entities draggedEntity)

open Classical in
/-- `EntitySystem.updateDrag` (`src/unnamed/part_010` lines 444-517): resolve
the drag target on the current or a connected track, run the collision/link
check, perform a proposed link, commit the dragged entity's progress and
position, propagate non-negligible movement through the chain, and reassign
track occupancy when the resolved track changed. -/
noncomputable def updateDrag (s : EntityState) (mousePosition : Vec2) : EntityState :=
  match s.drag.isDragging, s.drag.draggedCar with
  | false, _ => s
  | true, none => s
  | true, some cid =>
    match getEntityL s.entities cid with
    | none => s
    | some entity =>
      let oldProgress := entity.trackProgress
      let entitySize := getEntitySize entity
      let targetPosition : Vec2 :=
        ⟨mousePosition.x - s.drag.dragOffset.x + entitySize.width / 2,
         mousePosition.y - s.drag.dragOffset.y + entitySize.height / 2⟩
      match entity.currentTrack with
      | none => s
      | some currentTrackId =>
        match findClosestSplinePosition s targetPosition currentTrackId entity.id with
        | none => s
        | some result =>
          let collisionResult := checkCollisionsForLinkedEntity s entity result.t
          let linked :=
            match collisionResult.linkedEntity with
            | some otherEntity =>
              let r := EntitySystem.linkEntities s.tracks entity otherEntity
              (r.1, { s with entities := updateEntityL (updateEntityL s.entities r.1) r.2.1 })
            | none => (entity, s)
          let entity1 := linked.1
          let s1 := linked.2
          let finalProgress := collisionResult.adjustedProgress
          let deltaProgress := finalProgress - oldProgress
          let entity2 := { entity1 with trackProgress := finalProgress }
          let entity3 :=
            match getTrack s.tracks result.trackId with
            | none => entity2
            | some track =>
              let splinePos := getPositionOnSpline track.spline finalProgress
              let entitySize2 := getEntitySize entity2
              { entity2 with position :=
                  ⟨splinePos.x - entitySize2.width / 2, splinePos.y - entitySize2.height / 2⟩ }
          let s2 := { s1 with entities := updateEntityL s1.entities entity3 }
          let s3 :=
            if |deltaProgress| > 0.001 then
              { s2 with entities := moveLinkedEntitiesRelative s2 entity3 deltaProgress }
            else s2
          if result.trackId ≠ currentTrackId then
            let tracks1 := setTrackOccupied s3.tracks currentTrackId false
            if isTrackOccupiedByOtherEntity s3.entities result.trackId entity.id = false then
              let entity4 := { entity3 with currentTrack := some result.trackId }
              { s3 with tracks := setTrackOccupied tracks1 result.trackId true,
                        entities := updateEntityL s3.entities entity4 }
            else { s3 with tracks := tracks1 }
          else s3

/-- Two cars standing at the same progress on the same track, used by the C6
counterexample. -/
noncomputable def eA : Entity :=
  { id := "car_A", type := TrainCarType.regular, position := ⟨0, 0⟩, size := ⟨50, 22⟩,
    currentTrack := some "t", trackProgress := 0, isDragging := false,
    isCompleted := false, linkedCars := [] }

/-- Second car of the C6 counterexample. -/
noncomputable def eB : Entity :=
  { id := "car_B", type := TrainCarType.regular, position := ⟨0, 0⟩, size := ⟨50, 22⟩,
    currentTrack := some "t", trackProgress := 0, isDragging := false,
    isCompleted := false, linkedCars := [] }

/-- C6 counterexample: two same-track cars at the same progress have
center-to-center distance 0, so "center distance minus each half-width"
is `-50`; the code's `getEdgeToEdgeDistance` nevertheless returns `0`
(`Math.max(0, ...)` clamps), so the claimed equality fails at this input. -/
theorem c6_counterexample_edge_distance_clamped :
    getPixelDistanceBetweenEntities tsT eA eB = some 0 ∧
    getEdgeToEdgeDistance tsT eA eB = some 0 ∧
    (0 : ℝ) - (getEntitySize eA).width / 2 - (getEntitySize eB).width / 2 = -50 ∧
    (0 : ℝ) ≠ -50 := by
  have hA : getEntitySize eA = ⟨50, 22⟩ := by
    unfold getEntitySize
    rw [if_neg (by decide : ¬ isLocomotive eA = true)]
    rfl
  have hB : getEntitySize eB = ⟨50, 22⟩ := by
    unfold getEntitySize
    rw [if_neg (by decide : ¬ isLocomotive eB = true)]
    rfl
  have hpix : getPixelDistanceBetweenEntities tsT eA eB = some 0 := by
    unfold getPixelDistanceBetweenEntities
    rw [if_neg (by decide)]
    show (match getTrack tsT "t" with
      | none => none
      | some track => _) = some 0
    rw [show getTrack tsT "t" = some trackT from rfl]
    rw [show eB.trackProgress = eA.trackProgress from rfl]
    norm_num
  refine ⟨hpix, ?_, ?_, by norm_num⟩
  · unfold getEdgeToEdgeDistance
    rw [hpix]
    norm_num
    rw [hA, hB]
    norm_num
  · rw [hA, hB]
    norm_num

/-- C6 (amended): the edge-to-edge distance of two same-track entities is the
center-to-center spline distance minus each half-width **clamped below at
zero** (`Math.max(0, ...)`), and agrees with the claimed difference exactly
when that difference is nonnegative; consequently every finite edge-to-edge
distance is `≥ 0` in every state — in particular between any two entities of
the state left by any `updateDrag` call (the claimed no-overlap inequality
holds trivially, by the clamp rather than by separation). -/
theorem c6_edge_distance_nonneg (ts : SplineTrackSystem) (e1 e2 : Entity)
    (s : EntityState) (mousePosition : Vec2) (f1 f2 : Entity) :
    (∀ c, getPixelDistanceBetweenEntities ts e1 e2 = some c →
      getEdgeToEdgeDistance ts e1 e2
        = some (max 0 (c - (getEntitySize e1).width / 2 - (getEntitySize e2).width / 2))) ∧
    (∀ c, getPixelDistanceBetweenEntities ts e1 e2 = some c →
      0 ≤ c - (getEntitySize e1).width / 2 - (getEntitySize e2).width / 2 →
      getEdgeToEdgeDistance ts e1 e2
        = some (c - (getEntitySize e1).width / 2 - (getEntitySize e2).width / 2)) ∧
    (∀ d, getEdgeToEdgeDistance ts e1 e2 = some d → 0 ≤ d) ∧
    (f1 ∈ (updateDrag s mousePosition).entities →
      f2 ∈ (updateDrag s mousePosition).entities →
      ∀ d, getEdgeToEdgeDistance (updateDrag s mousePosition).tracks f1 f2 = some d →
        0 ≤ d) := by
  have hformula : ∀ (ts' : SplineTrackSystem) (a b : Entity) (c : ℝ),
      getPixelDistanceBetweenEntities ts' a b = some c →
      getEdgeToEdgeDistance ts' a b
        = some (max 0 (c - (getEntitySize a).width / 2 - (getEntitySize b).width / 2)) := by
    intro ts' a b c hc
    unfold getEdgeToEdgeDistance
    rw [hc]
  have hnonneg : ∀ (ts' : SplineTrackSystem) (a b : Entity) (d : ℝ),
      getEdgeToEdgeDistance ts' a b = some d → 0 ≤ d := by
    intro ts' a b d hd
    unfold getEdgeToEdgeDistance at hd
    rcases hc : getPixelDistanceBetweenEntities ts' a b with _ | c
    · rw [hc] at hd
      cases hd
    · rw [hc] at hd
      injection hd with hd
      rw [← hd]
      exact le_max_left 0 _
  refine ⟨fun c hc => hformula ts e1 e2 c hc, ?_, fun d hd => hnonneg ts e1 e2 d hd,
    fun _ _ d hd => hnonneg _ f1 f2 d hd⟩
  intro c hc h0
  rw [hformula ts e1 e2 c hc, max_eq_right h0]

end Railyard
